import Mathlib

/-!
# STX scheduler combinators, source location and option storage

A shallow embedding of the combinators of
`stx/scheduler/scheduling/await.h` (`await`, `await_any`) and
`stx/scheduler/scheduling/deferred.h` (`deferred`), of the class
`SourceLocation` of `stx/source_location.h` and of the two specialisations of
`OptionStorage` of `stx/option_result/impl/option_storage.h`.

The combinators are translated line by line.  The types they use but that are
declared in headers outside the sources at hand (`stx/scheduler.h`, the
future/promise channel, the allocator, the function handles and the vector)
are modelled from the specification; each such definition says so.

State is passed explicitly:

* `Memory V` holds the result slots of all promises (values of type `V`) and
  the memory resource behind the allocator;
* `TaskScheduler σ V` is the scheduler object the combinators mutate;
* `σ` is the state a user callable may read and write when it runs.
-/

namespace stx

/-! ## Future / promise channel -/

/-- Modelled from the spec: the result slot shared by a promise and the
futures derived from it (section 3; the channel is declared outside the
sources at hand).  A slot is pending until its single write.  `completed none`
is a completion that carries no value (Output is void).  The share count is
left out: no operation below reads it. -/
inductive Slot (V : Type) where
  | pending : Slot V
  | completed (value : Option V) : Slot V
  deriving DecidableEq, Repr

/-- Modelled from the spec: the heap state reachable through an allocator
(section 6, Allocator).  `slots` are the promise slots created so far, a
handle names a slot by its index.  `grant k` tells whether the request number
`k` made to the memory resource is granted, `requests` counts the requests
made so far; this covers every deterministic allocator. -/
structure Memory (V : Type) where
  slots : List (Slot V)
  grant : Nat → Bool
  requests : Nat

/-- Modelled from the spec: the error kind of a failed allocation
(section 6: signaled as a distinct error kind). -/
inductive AllocError where
  | NoMemory : AllocError
  deriving DecidableEq, Repr

/-- Modelled from the spec: the allocator object reference held by the
scheduler and handed to every construction (section 6).  The state of the
memory resource it refers to lives in `Memory`. -/
structure Allocator where
  handle : Nat
  deriving DecidableEq, Repr

/-- Modelled from the spec: `Future<T>`, a shared read handle to a slot. -/
structure Future where
  slot : Nat
  deriving DecidableEq, Repr

/-- Modelled from the spec: `FutureAny`, the type-erased future.  It refers to
the same slot as the typed handle it was erased from. -/
structure FutureAny where
  slot : Nat
  deriving DecidableEq, Repr

/-- Modelled from the spec: `Promise<T>`, the write handle of a slot. -/
structure Promise where
  slot : Nat
  deriving DecidableEq, Repr

/-- Modelled from the spec: `PromiseAny`, the type-erased promise. -/
structure PromiseAny where
  slot : Nat
  deriving DecidableEq, Repr

/-- How a fault (a panic, not a value handed to the caller) came about. -/
inductive Fault where
  | unwrap_of_err (e : AllocError) : Fault
  | completed_twice : Fault
  deriving DecidableEq, Repr

/-- The two ways a call can end: it returns a value to its caller, or it
faults.  A fault is not seen by the caller; `at_fault` records the state in
which the fault was raised.  `ill_formed` stands for a call that is in no
program: the instantiation of the template it names is ill-formed, the
compiler rejects it, and nothing runs. -/
inductive Outcome (ρ α : Type) where
  | returned (value : α) : Outcome ρ α
  | panicked (fault : Fault) (at_fault : ρ) : Outcome ρ α
  | ill_formed : Outcome ρ α

/-- One request to the memory resource: `none` when it is refused. -/
def Memory.request {V : Type} (m : Memory V) : Option (Memory V) :=
  if m.grant m.requests then some { m with requests := m.requests + 1 } else none

/-- Modelled from the spec: `Future::share()`, a new handle on the same slot. -/
def Future.share (f : Future) : Future := ⟨f.slot⟩

/-- Modelled from the spec: the conversion `FutureAny{future}`; erasure keeps
the slot. -/
def FutureAny.of (f : Future) : FutureAny := ⟨f.slot⟩

/-- Modelled from the spec: `Future::is_done()`, a peek at the completion flag
of the slot. -/
def Future.is_done {V : Type} (f : Future) (m : Memory V) : Bool :=
  match m.slots[f.slot]? with
  | some (Slot.completed _) => true
  | _ => false

/-- Modelled from the spec: `FutureAny::is_done()`. -/
def FutureAny.is_done {V : Type} (f : FutureAny) (m : Memory V) : Bool :=
  match m.slots[f.slot]? with
  | some (Slot.completed _) => true
  | _ => false

/-- The content of a completed slot, read through a future: `none` while the
slot is pending, `some none` after a completion without value. -/
def Future.fetch {V : Type} (f : Future) (m : Memory V) : Option (Option V) :=
  match m.slots[f.slot]? with
  | some (Slot.completed value) => some value
  | _ => none

/-- Modelled from the spec: `Promise::get_future()`. -/
def Promise.get_future (p : Promise) : Future := ⟨p.slot⟩

/-- Modelled from the spec: `Promise::share()`. -/
def Promise.share (p : Promise) : Promise := ⟨p.slot⟩

/-- Modelled from the spec: the conversion `PromiseAny{promise}`. -/
def PromiseAny.of (p : Promise) : PromiseAny := ⟨p.slot⟩

/-- Modelled from the spec: `Promise::notify_completed`, the single permitted
write of the slot.  `none` is the fatal second completion (sections 3 and 7). -/
def Promise.notify_completed {V : Type} (p : Promise) (value : Option V)
    (m : Memory V) : Option (Memory V) :=
  match m.slots[p.slot]? with
  | some Slot.pending => some { m with slots := m.slots.set p.slot (Slot.completed value) }
  | _ => none

/-- Modelled from the spec: `make_promise<T>(allocator)`.  The slot comes from
the allocator, so the construction can fail; on success the promise owns a
fresh pending slot. -/
def make_promise {V : Type} (_allocator : Allocator) (m : Memory V) :
    Except AllocError (Promise × Memory V) :=
  match m.request with
  | some m1 => Except.ok (⟨m1.slots.length⟩, { m1 with slots := m1.slots ++ [Slot.pending] })
  | none => Except.error AllocError.NoMemory

/-- Modelled from the spec: `fn::rc::make_functor(allocator, closure)`;
construct-from-closure may fail if allocation fails (section 6). -/
def make_functor {V F : Type} (_allocator : Allocator) (m : Memory V) (functor : F) :
    Except AllocError (F × Memory V) :=
  match m.request with
  | some m1 => Except.ok (functor, m1)
  | none => Except.error AllocError.NoMemory

/-- Modelled from the spec: `fn::rc::make_unique_functor(allocator, closure)`. -/
def make_unique_functor {V F : Type} (_allocator : Allocator) (m : Memory V) (functor : F) :
    Except AllocError (F × Memory V) :=
  match m.request with
  | some m1 => Except.ok (functor, m1)
  | none => Except.error AllocError.NoMemory

/-- Modelled from the spec: `vec::push(vec, value)`, which yields the vector
with `value` after its last element, or an allocation error when the vector
cannot grow. -/
def vec.push {V T : Type} (m : Memory V) (vec : List T) (value : T) :
    Except AllocError (List T × Memory V) :=
  match m.request with
  | some m1 => Except.ok (vec ++ [value], m1)
  | none => Except.error AllocError.NoMemory

/-! ## Scheduler types -/

/-- The value a readiness predicate returns. -/
inductive TaskReady where
  | No : TaskReady
  | Yes : TaskReady
  deriving DecidableEq, Repr

/-- A duration in nanoseconds (`std::chrono::nanoseconds`). -/
abbrev nanoseconds := Int

/-- A reading of `std::chrono::steady_clock`. -/
abbrev time_point := Int

/-- Modelled from the spec: `TaskId`, the integer assigned at registration. -/
structure TaskId where
  id : Nat
  deriving DecidableEq, Repr

/-- Modelled from the spec: `TaskPriority`, an ordered enumeration. -/
structure TaskPriority where
  level : Nat
  deriving DecidableEq, Repr

/-- Modelled from the spec: `TaskTraceInfo`, the diagnostic bundle
(name, origin) attached at registration. -/
structure TaskTraceInfo where
  name : String
  origin : String
  deriving DecidableEq, Repr

/-- The arguments of one call of a user callable.  `apply args` is
`std::apply(fn, tuple)`, which spreads the typed futures in tuple order. -/
inductive Invocation where
  | apply (args : List Future) : Invocation
  deriving DecidableEq, Repr

/-- The template parameter `Fn`.  The constructor records the compile-time
fact `std::is_void_v<output>`.  A call reads the slots, may update the user
state `σ`, and a value-returning callable yields its result. -/
inductive Callable (σ V : Type) where
  | returns_value (call : Memory V → Invocation → σ → V × σ) : Callable σ V
  | returns_void (call : Memory V → Invocation → σ → σ) : Callable σ V

/-- What invoking a stored closure `RcFn<void()>` does to the slots and the
user state. -/
abbrev Closure (σ V : Type) :=
  Memory V × σ → Outcome (Memory V × σ) (Memory V × σ)

/-- A stored readiness predicate `TaskReady(nanoseconds)`; it reads the slots
its captured futures refer to. -/
abbrev Readiness (V : Type) := Memory V → nanoseconds → TaskReady

/-- Modelled from the spec: the `Task` descriptor, fields in the order of the
aggregate initialiser on lines 64 to 66 of await.h. -/
structure Task (σ V : Type) where
  fn : Closure σ V
  readiness_fn : Readiness V
  timepoint : time_point
  task_promise : PromiseAny
  task_id : TaskId
  priority : TaskPriority
  trace_info : TaskTraceInfo

/-- Modelled from the spec: the `DeferredTask` descriptor, fields in the order
of the aggregate initialiser on lines 64 and 65 of deferred.h. -/
structure DeferredTask (σ V : Type) where
  schedule : Closure σ V
  schedule_timepoint : time_point
  readiness : Readiness V

/-- Modelled from the spec: the members of `TaskScheduler` the combinators
use.  `next_task_id` is an unsigned machine integer whose declaration is not
among the sources; its width in bits is the parameter `w` of the
combinators. -/
structure TaskScheduler (σ V : Type) where
  next_task_id : Nat
  entries : List (Task σ V)
  deferred_entries : List (DeferredTask σ V)
  allocator : Allocator

/-! ## await.h -/

/-- The readiness closure of `await` (lines 29 to 38): all-of over the
captured `await_futures_`; the `nanoseconds` parameter is unnamed. -/
def await.readiness_fn {V : Type} (await_futures_ : List FutureAny) : Readiness V :=
  fun m _ =>
    let all_ready := await_futures_.all (fun future => future.is_done m)
    if all_ready then TaskReady.Yes else TaskReady.No

/-- The task closure of `await` (lines 49 to 60). -/
def await.fn {σ V : Type} (task_ : Callable σ V) (args_ : List Future)
    (promise_ : Promise) : Closure σ V :=
  fun st =>
    match task_ with
    | Callable.returns_value call =>
      let r := call st.1 (Invocation.apply args_) st.2
      match promise_.notify_completed (some r.1) st.1 with
      | some m1 => Outcome.returned (m1, r.2)
      | none => Outcome.panicked Fault.completed_twice (st.1, r.2)
    | Callable.returns_void call =>
      let u1 := call st.1 (Invocation.apply args_) st.2
      match promise_.notify_completed none st.1 with
      | some m1 => Outcome.returned (m1, u1)
      | none => Outcome.panicked Fault.completed_twice (st.1, u1)

/-- The combinator `await` (await.h lines 11 to 70).  `w` is the width of
`next_task_id`, `now` the reading of the steady clock, `m` the memory at the
call. -/
def await {σ V : Type} (w : Nat) (now : time_point) (m : Memory V)
    (scheduler : TaskScheduler σ V) (task : Callable σ V) (priority : TaskPriority)
    (trace_info : TaskTraceInfo) (first_input : Future) (other_inputs : List Future) :
    Outcome (TaskScheduler σ V × Memory V) (Future × TaskScheduler σ V × Memory V) :=
  let timepoint := now
  let task_id : TaskId := ⟨scheduler.next_task_id⟩
  let scheduler := { scheduler with next_task_id := (scheduler.next_task_id + 1) % 2 ^ w }
  let await_futures : List FutureAny :=
    FutureAny.of first_input.share :: other_inputs.map (fun f => FutureAny.of f.share)
  match make_functor scheduler.allocator m (await.readiness_fn await_futures : Readiness V) with
  | Except.error e => Outcome.panicked (Fault.unwrap_of_err e) (scheduler, m)
  | Except.ok (readiness_fn, m) =>
    let args : List Future := first_input :: other_inputs
    match make_promise scheduler.allocator m with
    | Except.error e => Outcome.panicked (Fault.unwrap_of_err e) (scheduler, m)
    | Except.ok (promise, m) =>
      let future := promise.get_future
      let task_promise := PromiseAny.of promise.share
      match make_functor scheduler.allocator m (await.fn task args promise) with
      | Except.error e => Outcome.panicked (Fault.unwrap_of_err e) (scheduler, m)
      | Except.ok (fn, m) =>
        match vec.push m scheduler.entries
            (Task.mk fn readiness_fn timepoint task_promise task_id priority trace_info) with
        | Except.error e => Outcome.panicked (Fault.unwrap_of_err e) (scheduler, m)
        | Except.ok (entries, m) =>
          Outcome.returned (future, { scheduler with entries := entries }, m)

/-- The readiness closure of `await_any` (lines 90 to 99): any-of over the
captured `await_futures_`. -/
def await_any.readiness_fn {V : Type} (await_futures_ : List FutureAny) : Readiness V :=
  fun m _ =>
    let any_ready := await_futures_.any (fun future => future.is_done m)
    if any_ready then TaskReady.Yes else TaskReady.No

/-- The task closure of `await_any` (lines 109 to 120). -/
def await_any.fn {σ V : Type} (task_ : Callable σ V) (args_ : List Future)
    (promise_ : Promise) : Closure σ V :=
  fun st =>
    match task_ with
    | Callable.returns_value call =>
      let r := call st.1 (Invocation.apply args_) st.2
      match promise_.notify_completed (some r.1) st.1 with
      | some m1 => Outcome.returned (m1, r.2)
      | none => Outcome.panicked Fault.completed_twice (st.1, r.2)
    | Callable.returns_void call =>
      let u1 := call st.1 (Invocation.apply args_) st.2
      match promise_.notify_completed none st.1 with
      | some m1 => Outcome.returned (m1, u1)
      | none => Outcome.panicked Fault.completed_twice (st.1, u1)

/-- The combinator `await_any` (await.h lines 72 to 130). -/
def await_any {σ V : Type} (w : Nat) (now : time_point) (m : Memory V)
    (scheduler : TaskScheduler σ V) (task : Callable σ V) (priority : TaskPriority)
    (trace_info : TaskTraceInfo) (first_input : Future) (other_inputs : List Future) :
    Outcome (TaskScheduler σ V × Memory V) (Future × TaskScheduler σ V × Memory V) :=
  let timepoint := now
  let task_id : TaskId := ⟨scheduler.next_task_id⟩
  let scheduler := { scheduler with next_task_id := (scheduler.next_task_id + 1) % 2 ^ w }
  let await_futures : List FutureAny :=
    FutureAny.of first_input.share :: other_inputs.map (fun f => FutureAny.of f.share)
  match make_functor scheduler.allocator m
      (await_any.readiness_fn await_futures : Readiness V) with
  | Except.error e => Outcome.panicked (Fault.unwrap_of_err e) (scheduler, m)
  | Except.ok (readiness_fn, m) =>
    let args : List Future := first_input :: other_inputs
    match make_promise scheduler.allocator m with
    | Except.error e => Outcome.panicked (Fault.unwrap_of_err e) (scheduler, m)
    | Except.ok (promise, m) =>
      let future := promise.get_future
      let task_promise := PromiseAny.of promise.share
      match make_functor scheduler.allocator m (await_any.fn task args promise) with
      | Except.error e => Outcome.panicked (Fault.unwrap_of_err e) (scheduler, m)
      | Except.ok (fn, m) =>
        match vec.push m scheduler.entries
            (Task.mk fn readiness_fn timepoint task_promise task_id priority trace_info) with
        | Except.error e => Outcome.panicked (Fault.unwrap_of_err e) (scheduler, m)
        | Except.ok (entries, m) =>
          Outcome.returned (future, { scheduler with entries := entries }, m)

/-! ## deferred.h -/

/-- The readiness closure of `deferred` (lines 34 to 41): all-of over the
captured `await_`. -/
def deferred.readiness {V : Type} (await_ : List FutureAny) : Readiness V :=
  fun m _ =>
    let all_ready := await_.all (fun future => future.is_done m)
    if all_ready then TaskReady.Yes else TaskReady.No

/-- The schedule closure of `deferred` (lines 47 to 60) for a `schedule_task`
that returns a value: lines 54 and 55, one `std::apply` call and the completion
of the promise with its result.  The branch for a void output (lines 57 and 58)
is in no program, see `deferred`. -/
def deferred.schedule {σ V : Type}
    (schedule_task_ : Memory V → Invocation → σ → V × σ)
    (await_futures_ : List Future) (promise_ : Promise) : Closure σ V :=
  fun st =>
    let r := schedule_task_ st.1 (Invocation.apply await_futures_) st.2
    match promise_.notify_completed (some r.1) st.1 with
    | some m1 => Outcome.returned (m1, r.2)
    | none => Outcome.panicked Fault.completed_twice (st.1, r.2)

/-- The combinator `deferred` (deferred.h lines 15 to 69).  A `schedule_task`
with a void result passes the `static_assert` of lines 19 and 20, but for it
the closure is the branch of lines 57 and 58, and line 57,
`schedule_task_(std::apply(schedule_task_, std::move(await_futures_)))`, passes
the void result of `std::apply` as an argument, which is ill-formed: the
template cannot be instantiated, so there is no such call. -/
def deferred {σ V : Type} (now : time_point) (m : Memory V)
    (scheduler : TaskScheduler σ V) (schedule_task : Callable σ V)
    (first_input : Future) (other_inputs : List Future) :
    Outcome (TaskScheduler σ V × Memory V) (Future × TaskScheduler σ V × Memory V) :=
  match schedule_task with
  | Callable.returns_void _ => Outcome.ill_formed
  | Callable.returns_value call =>
    let schedule_timepoint := now
    match make_promise scheduler.allocator m with
    | Except.error e => Outcome.panicked (Fault.unwrap_of_err e) (scheduler, m)
    | Except.ok (promise, m) =>
      let future := promise.get_future
      let await : List FutureAny :=
        FutureAny.of first_input.share :: other_inputs.map (fun f => FutureAny.of f.share)
      match make_unique_functor scheduler.allocator m
          (deferred.readiness await : Readiness V) with
      | Except.error e => Outcome.panicked (Fault.unwrap_of_err e) (scheduler, m)
      | Except.ok (readiness, m) =>
        let await_futures : List Future := first_input :: other_inputs
        match make_functor scheduler.allocator m
            (deferred.schedule call await_futures promise) with
        | Except.error e => Outcome.panicked (Fault.unwrap_of_err e) (scheduler, m)
        | Except.ok (schedule, m) =>
          match vec.push m scheduler.deferred_entries
              (DeferredTask.mk schedule schedule_timepoint readiness) with
          | Except.error e => Outcome.panicked (Fault.unwrap_of_err e) (scheduler, m)
          | Except.ok (deferred_entries, m) =>
            Outcome.returned
              (future, { scheduler with deferred_entries := deferred_entries }, m)

/-! ## Sequences of registrations -/

/-- One call of a combinator, with the arguments of the call. -/
inductive Registration (σ V : Type) where
  | await (now : time_point) (task : Callable σ V) (priority : TaskPriority)
      (trace_info : TaskTraceInfo) (first_input : Future) (other_inputs : List Future) :
      Registration σ V
  | await_any (now : time_point) (task : Callable σ V) (priority : TaskPriority)
      (trace_info : TaskTraceInfo) (first_input : Future) (other_inputs : List Future) :
      Registration σ V
  | deferred (now : time_point) (schedule_task : Callable σ V)
      (first_input : Future) (other_inputs : List Future) : Registration σ V

/-- Whether the call is one of `await` and `await_any`, the calls that
register a `Task`. -/
def Registration.registers_task {σ V : Type} : Registration σ V → Bool
  | Registration.await _ _ _ _ _ _ => true
  | Registration.await_any _ _ _ _ _ _ => true
  | Registration.deferred _ _ _ _ => false

/-- The scheduler and the memory after a call; the returned future is dropped. -/
def Outcome.state {ρ α β : Type} : Outcome ρ (α × β) → Outcome ρ β
  | Outcome.returned value => Outcome.returned value.2
  | Outcome.panicked fault at_fault => Outcome.panicked fault at_fault
  | Outcome.ill_formed => Outcome.ill_formed

/-- Performs one call on the scheduler. -/
def Registration.perform {σ V : Type} (w : Nat) (c : Registration σ V)
    (st : TaskScheduler σ V × Memory V) :
    Outcome (TaskScheduler σ V × Memory V) (TaskScheduler σ V × Memory V) :=
  match c with
  | Registration.await now task priority trace_info first_input other_inputs =>
    (stx.await w now st.2 st.1 task priority trace_info first_input other_inputs).state
  | Registration.await_any now task priority trace_info first_input other_inputs =>
    (stx.await_any w now st.2 st.1 task priority trace_info first_input other_inputs).state
  | Registration.deferred now schedule_task first_input other_inputs =>
    (stx.deferred now st.2 st.1 schedule_task first_input other_inputs).state

/-- Performs the calls in order; a fault, or a call that is ill-formed, ends
the sequence. -/
def perform_all {σ V : Type} (w : Nat) :
    List (Registration σ V) → TaskScheduler σ V × Memory V →
      Outcome (TaskScheduler σ V × Memory V) (TaskScheduler σ V × Memory V)
  | [], st => Outcome.returned st
  | c :: cs, st =>
    match c.perform w st with
    | Outcome.returned st1 => perform_all w cs st1
    | Outcome.panicked fault at_fault => Outcome.panicked fault at_fault
    | Outcome.ill_formed => Outcome.ill_formed

/-! ## Scenarios

The scenarios of section 8 of the specification.  Values are integers; the
user state is the list of the calls a callable has received, oldest first. -/

namespace scenario

/-- The value a callable reads from an input future; 0 stands for a value
that is not there. -/
def value_of (m : Memory Int) (f : Future) : Int :=
  match f.fetch m with
  | some (some v) => v
  | _ => 0

/-- The continuation `sum`: adds the values of its input futures. -/
def sum : Callable (List Invocation) Int :=
  Callable.returns_value fun m call received =>
    match call with
    | Invocation.apply args => ((args.map (value_of m)).sum, received ++ [call])

/-- The continuation `first_ready_doubled`: twice the value of the first
input future that is done; it reads no future that is pending. -/
def first_ready_doubled : Callable (List Invocation) Int :=
  Callable.returns_value fun m call received =>
    match call with
    | Invocation.apply args =>
      (match args.find? (fun f => f.is_done m) with
        | some f => 2 * value_of m f
        | none => 0, received ++ [call])

/-- A callable without result, `[](Future<int> &&...) {}`. -/
def no_result : Callable (List Invocation) Int :=
  Callable.returns_void fun _ call received => received ++ [call]

/-- The input future A. -/
def A : Future := ⟨0⟩

/-- The input future B. -/
def B : Future := ⟨1⟩

/-- A memory resource that grants every request. -/
def memory (slots : List (Slot Int)) : Memory Int :=
  { slots := slots, grant := fun _ => true, requests := 0 }

/-- A memory resource that refuses every request. -/
def exhausted (slots : List (Slot Int)) : Memory Int :=
  { slots := slots, grant := fun _ => false, requests := 0 }

/-- A scheduler without registrations whose next id is `next`. -/
def scheduler (next : Nat) : TaskScheduler (List Invocation) Int :=
  { next_task_id := next, entries := [], deferred_entries := [], allocator := ⟨0⟩ }

/-- The priority used in the scenarios. -/
def priority : TaskPriority := ⟨2⟩

/-- The trace information used in the scenarios. -/
def trace_info : TaskTraceInfo := ⟨"continuation", "scenario"⟩

end scenario

/-! ## source_location.h -/

/-- The class `SourceLocation` (lines 31 to 108), with its four private
members.  A member of type `uint_least32_t` is a natural number, a member of
type `char const *` is the string it points to. -/
structure SourceLocation where
  line_ : Nat
  column_ : Nat
  file_ : String
  function_ : String
  deriving DecidableEq, Repr

/-- The default constructor `SourceLocation()` (lines 75 to 77). -/
def SourceLocation.SourceLocation : stx.SourceLocation :=
  { line_ := 0, column_ := 0, file_ := "", function_ := "" }

/-- The static member `current` (lines 33 to 73), called with its four
arguments; the default arguments, which the compiler fills in at the call
site, are outside the model. -/
def SourceLocation.current (file : String) (function : String) (line : Nat)
    (column : Nat) : stx.SourceLocation :=
  let loc : stx.SourceLocation := SourceLocation.SourceLocation
  let loc : stx.SourceLocation := { loc with line_ := line }
  let loc : stx.SourceLocation := { loc with column_ := column }
  let loc : stx.SourceLocation := { loc with file_ := file }
  let loc : stx.SourceLocation := { loc with function_ := function }
  loc

/-- The accessor `column()` (lines 80 to 83). -/
def SourceLocation.column (loc : stx.SourceLocation) : Nat := loc.column_

/-- The accessor `line()` (lines 86 to 89). -/
def SourceLocation.line (loc : stx.SourceLocation) : Nat := loc.line_

/-- The accessor `file_name()` (lines 92 to 95). -/
def SourceLocation.file_name (loc : stx.SourceLocation) : String := loc.file_

/-- The accessor `function_name()` (lines 98 to 101). -/
def SourceLocation.function_name (loc : stx.SourceLocation) : String := loc.function_

/-! ## option_storage.h -/

/-- The class template `OptionStorage<T, trivial>` (lines 13 to 20 and 83 to
89): both specialisations have the members `some_` and `is_none_`.  `some_` is
the object that lives in the union member, `none` when no object lives
there. -/
structure OptionStorage (T : Type) (trivial : Bool) where
  some_ : Option T
  is_none_ : Bool
  deriving DecidableEq, Repr

/-- The constructors from `NoneType` (lines 45 and 101) and from `Some<T> &&`
(lines 47, 48 and 103, 104), the same in both specialisations.  The argument
`none` is the overload on `NoneType`, the argument `some v` the overload on
`Some<T> &&`. -/
def OptionStorage.OptionStorage {T : Type} (trivial : Bool) :
    Option T → stx.OptionStorage T trivial
  | none => { some_ := none, is_none_ := true }
  | some v => { some_ := some v, is_none_ := false }

/-- The two overloads of `finally_init` in each specialisation (lines 50 to 55
and 106 to 111).  With `some v` the primary template constructs the object in
place and the trivial specialisation assigns it; with `none` only the flag is
set. -/
def OptionStorage.finally_init {T : Type} :
    {trivial : Bool} → stx.OptionStorage T trivial → Option T → stx.OptionStorage T trivial
  | false, _, some v => { some_ := some v, is_none_ := false }
  | false, s, none => { s with is_none_ := true }
  | true, s, some v =>
    let s : stx.OptionStorage T true := { s with some_ := some v }
    { s with is_none_ := false }
  | true, s, none => { s with is_none_ := true }

/-- The two overloads of `assign` in each specialisation (lines 57 to 74 and
113 to 115).  In the primary template `assign(None)` destroys the object when
there is one, and `assign(Some)` constructs in place when there is none and
move-assigns otherwise.  The trivial specialisation forwards to
`finally_init`. -/
def OptionStorage.assign {T : Type} :
    {trivial : Bool} → stx.OptionStorage T trivial → Option T → stx.OptionStorage T trivial
  | false, s, none =>
    if !s.is_none_ then
      let s : stx.OptionStorage T false := { s with some_ := none }
      { s with is_none_ := true }
    else
      { s with is_none_ := true }
  | false, s, some v =>
    if s.is_none_ then
      let s : stx.OptionStorage T false := OptionStorage.finally_init s (some v)
      { s with is_none_ := false }
    else
      let s : stx.OptionStorage T false := { s with some_ := some v }
      { s with is_none_ := false }
  | true, s, none => OptionStorage.finally_init s none
  | true, s, some v => OptionStorage.finally_init s (some v)

/-! ## Theorems

### What a call returns -/

/-- When the four requests of the call are granted, `await` returns, and this
is what it returns. -/
theorem await_of_granted {σ V : Type} (w : Nat) (now : time_point) (m : Memory V)
    (scheduler : TaskScheduler σ V) (task : Callable σ V) (priority : TaskPriority)
    (trace_info : TaskTraceInfo) (first_input : Future) (other_inputs : List Future)
    (hg : ∀ k, k < 4 → m.grant (m.requests + k) = true) :
    await w now m scheduler task priority trace_info first_input other_inputs =
      Outcome.returned
        (⟨m.slots.length⟩,
         { next_task_id := (scheduler.next_task_id + 1) % 2 ^ w
           entries := scheduler.entries ++
             [Task.mk (await.fn task (first_input :: other_inputs) ⟨m.slots.length⟩)
               (await.readiness_fn
                 (FutureAny.of first_input.share ::
                   other_inputs.map (fun f => FutureAny.of f.share)))
               now ⟨m.slots.length⟩ ⟨scheduler.next_task_id⟩ priority trace_info]
           deferred_entries := scheduler.deferred_entries
           allocator := scheduler.allocator },
         { slots := m.slots ++ [Slot.pending], grant := m.grant,
           requests := m.requests + 4 }) := by
  have h0 := hg 0 (by decide)
  have h1 := hg 1 (by decide)
  have h2 := hg 2 (by decide)
  have h3 := hg 3 (by decide)
  simp only [Nat.add_zero] at h0
  simp [await, make_functor, make_promise, vec.push, Memory.request, h0, h1, h2, h3,
    Promise.get_future, PromiseAny.of, Promise.share, Nat.add_assoc]

/-- When one of the four requests of the call is refused, `await` faults on the
`unwrap()` of the error; the registries are then as they were at the call. -/
theorem await_of_refused {σ V : Type} (w : Nat) (now : time_point) (m : Memory V)
    (scheduler : TaskScheduler σ V) (task : Callable σ V) (priority : TaskPriority)
    (trace_info : TaskTraceInfo) (first_input : Future) (other_inputs : List Future)
    (hg : ∃ k, k < 4 ∧ m.grant (m.requests + k) = false) :
    ∃ m1, await w now m scheduler task priority trace_info first_input other_inputs =
      Outcome.panicked (Fault.unwrap_of_err AllocError.NoMemory)
        ({ scheduler with next_task_id := (scheduler.next_task_id + 1) % 2 ^ w }, m1) := by
  obtain ⟨k, hk, hf⟩ := hg
  cases h0 : m.grant m.requests
  · exact ⟨m, by simp [await, make_functor, Memory.request, h0]⟩
  cases h1 : m.grant (m.requests + 1)
  · exact ⟨{ m with requests := m.requests + 1 },
      by simp [await, make_functor, make_promise, Memory.request, h0, h1]⟩
  cases h2 : m.grant (m.requests + 2)
  · exact ⟨{ slots := m.slots ++ [Slot.pending], grant := m.grant, requests := m.requests + 2 },
      by simp [await, make_functor, make_promise, Memory.request, h0, h1, h2, Nat.add_assoc]⟩
  cases h3 : m.grant (m.requests + 3)
  · exact ⟨{ slots := m.slots ++ [Slot.pending], grant := m.grant, requests := m.requests + 3 },
      by simp [await, make_functor, make_promise, vec.push, Memory.request, h0, h1, h2, h3,
        Nat.add_assoc]⟩
  exfalso
  interval_cases k <;> simp_all

/-- A call of `await` that returns was granted its four requests. -/
theorem await_granted_of_returned {σ V : Type} (w : Nat) (now : time_point) (m : Memory V)
    (scheduler : TaskScheduler σ V) (task : Callable σ V) (priority : TaskPriority)
    (trace_info : TaskTraceInfo) (first_input : Future) (other_inputs : List Future)
    (r : Future × TaskScheduler σ V × Memory V)
    (h : await w now m scheduler task priority trace_info first_input other_inputs =
      Outcome.returned r) :
    ∀ k, k < 4 → m.grant (m.requests + k) = true := by
  intro k hk
  cases hf : m.grant (m.requests + k)
  · obtain ⟨m1, hp⟩ := await_of_refused w now m scheduler task priority trace_info
      first_input other_inputs ⟨k, hk, hf⟩
    rw [hp] at h
    cases h
  · rfl

/-- When the four requests of the call are granted, `await_any` returns, and this
is what it returns. -/
theorem await_any_of_granted {σ V : Type} (w : Nat) (now : time_point) (m : Memory V)
    (scheduler : TaskScheduler σ V) (task : Callable σ V) (priority : TaskPriority)
    (trace_info : TaskTraceInfo) (first_input : Future) (other_inputs : List Future)
    (hg : ∀ k, k < 4 → m.grant (m.requests + k) = true) :
    await_any w now m scheduler task priority trace_info first_input other_inputs =
      Outcome.returned
        (⟨m.slots.length⟩,
         { next_task_id := (scheduler.next_task_id + 1) % 2 ^ w
           entries := scheduler.entries ++
             [Task.mk (await_any.fn task (first_input :: other_inputs) ⟨m.slots.length⟩)
               (await_any.readiness_fn
                 (FutureAny.of first_input.share ::
                   other_inputs.map (fun f => FutureAny.of f.share)))
               now ⟨m.slots.length⟩ ⟨scheduler.next_task_id⟩ priority trace_info]
           deferred_entries := scheduler.deferred_entries
           allocator := scheduler.allocator },
         { slots := m.slots ++ [Slot.pending], grant := m.grant,
           requests := m.requests + 4 }) := by
  have h0 := hg 0 (by decide)
  have h1 := hg 1 (by decide)
  have h2 := hg 2 (by decide)
  have h3 := hg 3 (by decide)
  simp only [Nat.add_zero] at h0
  simp [await_any, make_functor, make_promise, vec.push, Memory.request, h0, h1, h2, h3,
    Promise.get_future, PromiseAny.of, Promise.share, Nat.add_assoc]

/-- When one of the four requests of the call is refused, `await_any` faults on the
`unwrap()` of the error; the registries are then as they were at the call. -/
theorem await_any_of_refused {σ V : Type} (w : Nat) (now : time_point) (m : Memory V)
    (scheduler : TaskScheduler σ V) (task : Callable σ V) (priority : TaskPriority)
    (trace_info : TaskTraceInfo) (first_input : Future) (other_inputs : List Future)
    (hg : ∃ k, k < 4 ∧ m.grant (m.requests + k) = false) :
    ∃ m1, await_any w now m scheduler task priority trace_info first_input other_inputs =
      Outcome.panicked (Fault.unwrap_of_err AllocError.NoMemory)
        ({ scheduler with next_task_id := (scheduler.next_task_id + 1) % 2 ^ w }, m1) := by
  obtain ⟨k, hk, hf⟩ := hg
  cases h0 : m.grant m.requests
  · exact ⟨m, by simp [await_any, make_functor, Memory.request, h0]⟩
  cases h1 : m.grant (m.requests + 1)
  · exact ⟨{ m with requests := m.requests + 1 },
      by simp [await_any, make_functor, make_promise, Memory.request, h0, h1]⟩
  cases h2 : m.grant (m.requests + 2)
  · exact ⟨{ slots := m.slots ++ [Slot.pending], grant := m.grant, requests := m.requests + 2 },
      by simp [await_any, make_functor, make_promise, Memory.request, h0, h1, h2, Nat.add_assoc]⟩
  cases h3 : m.grant (m.requests + 3)
  · exact ⟨{ slots := m.slots ++ [Slot.pending], grant := m.grant, requests := m.requests + 3 },
      by simp [await_any, make_functor, make_promise, vec.push, Memory.request, h0, h1, h2, h3,
        Nat.add_assoc]⟩
  exfalso
  interval_cases k <;> simp_all

/-- A call of `await_any` that returns was granted its four requests. -/
theorem await_any_granted_of_returned {σ V : Type} (w : Nat) (now : time_point) (m : Memory V)
    (scheduler : TaskScheduler σ V) (task : Callable σ V) (priority : TaskPriority)
    (trace_info : TaskTraceInfo) (first_input : Future) (other_inputs : List Future)
    (r : Future × TaskScheduler σ V × Memory V)
    (h : await_any w now m scheduler task priority trace_info first_input other_inputs =
      Outcome.returned r) :
    ∀ k, k < 4 → m.grant (m.requests + k) = true := by
  intro k hk
  cases hf : m.grant (m.requests + k)
  · obtain ⟨m1, hp⟩ := await_any_of_refused w now m scheduler task priority trace_info
      first_input other_inputs ⟨k, hk, hf⟩
    rw [hp] at h
    cases h
  · rfl

/-- With a `schedule_task` without result the call of `deferred` is
ill-formed. -/
theorem deferred_of_void {σ V : Type} (now : time_point) (m : Memory V)
    (scheduler : TaskScheduler σ V) (call : Memory V → Invocation → σ → σ)
    (first_input : Future) (other_inputs : List Future) :
    deferred now m scheduler (Callable.returns_void call) first_input other_inputs =
      Outcome.ill_formed := rfl

/-- When the four requests of the call are granted, `deferred` with a
`schedule_task` that returns a value returns, and this is what it returns. -/
theorem deferred_of_granted {σ V : Type} (now : time_point) (m : Memory V)
    (scheduler : TaskScheduler σ V) (call : Memory V → Invocation → σ → V × σ)
    (first_input : Future) (other_inputs : List Future)
    (hg : ∀ k, k < 4 → m.grant (m.requests + k) = true) :
    deferred now m scheduler (Callable.returns_value call) first_input other_inputs =
      Outcome.returned
        (⟨m.slots.length⟩,
         { next_task_id := scheduler.next_task_id
           entries := scheduler.entries
           deferred_entries := scheduler.deferred_entries ++
             [DeferredTask.mk
               (deferred.schedule call (first_input :: other_inputs) ⟨m.slots.length⟩)
               now
               (deferred.readiness
                 (FutureAny.of first_input.share ::
                   other_inputs.map (fun f => FutureAny.of f.share)))]
           allocator := scheduler.allocator },
         { slots := m.slots ++ [Slot.pending], grant := m.grant,
           requests := m.requests + 4 }) := by
  have h0 := hg 0 (by decide)
  have h1 := hg 1 (by decide)
  have h2 := hg 2 (by decide)
  have h3 := hg 3 (by decide)
  simp only [Nat.add_zero] at h0
  simp [deferred, make_functor, make_unique_functor, make_promise, vec.push, Memory.request,
    h0, h1, h2, h3, Promise.get_future, Nat.add_assoc]

/-- When one of the four requests of the call is refused, `deferred` with a
`schedule_task` that returns a value faults on the `unwrap()` of the error; the
scheduler is then as it was at the call. -/
theorem deferred_of_refused {σ V : Type} (now : time_point) (m : Memory V)
    (scheduler : TaskScheduler σ V) (call : Memory V → Invocation → σ → V × σ)
    (first_input : Future) (other_inputs : List Future)
    (hg : ∃ k, k < 4 ∧ m.grant (m.requests + k) = false) :
    ∃ m1, deferred now m scheduler (Callable.returns_value call) first_input
        other_inputs =
      Outcome.panicked (Fault.unwrap_of_err AllocError.NoMemory) (scheduler, m1) := by
  obtain ⟨k, hk, hf⟩ := hg
  cases h0 : m.grant m.requests
  · exact ⟨m, by simp [deferred, make_promise, Memory.request, h0]⟩
  cases h1 : m.grant (m.requests + 1)
  · exact ⟨{ slots := m.slots ++ [Slot.pending], grant := m.grant, requests := m.requests + 1 },
      by simp [deferred, make_unique_functor, make_promise, Memory.request, h0, h1]⟩
  cases h2 : m.grant (m.requests + 2)
  · exact ⟨{ slots := m.slots ++ [Slot.pending], grant := m.grant, requests := m.requests + 2 },
      by simp [deferred, make_functor, make_unique_functor, make_promise, Memory.request,
        h0, h1, h2, Nat.add_assoc]⟩
  cases h3 : m.grant (m.requests + 3)
  · exact ⟨{ slots := m.slots ++ [Slot.pending], grant := m.grant, requests := m.requests + 3 },
      by simp [deferred, make_functor, make_unique_functor, make_promise, vec.push,
        Memory.request, h0, h1, h2, h3, Nat.add_assoc]⟩
  exfalso
  interval_cases k <;> simp_all

/-- A call of `deferred` that returned was made with a `schedule_task` that
returns a value. -/
theorem deferred_value_of_returned {σ V : Type} (now : time_point) (m : Memory V)
    (scheduler : TaskScheduler σ V) (schedule_task : Callable σ V)
    (first_input : Future) (other_inputs : List Future)
    (r : Future × TaskScheduler σ V × Memory V)
    (h : deferred now m scheduler schedule_task first_input other_inputs =
      Outcome.returned r) :
    ∃ call, schedule_task = Callable.returns_value call := by
  cases schedule_task with
  | returns_value call => exact ⟨call, rfl⟩
  | returns_void call =>
    rw [deferred_of_void] at h
    cases h

/-- A call of `deferred` that faulted was made with a `schedule_task` that
returns a value. -/
theorem deferred_value_of_panicked {σ V : Type} (now : time_point) (m : Memory V)
    (scheduler : TaskScheduler σ V) (schedule_task : Callable σ V)
    (first_input : Future) (other_inputs : List Future)
    (fault : Fault) (at_fault : TaskScheduler σ V × Memory V)
    (h : deferred now m scheduler schedule_task first_input other_inputs =
      Outcome.panicked fault at_fault) :
    ∃ call, schedule_task = Callable.returns_value call := by
  cases schedule_task with
  | returns_value call => exact ⟨call, rfl⟩
  | returns_void call =>
    rw [deferred_of_void] at h
    cases h

/-- A call of `deferred` that returns was granted its four requests. -/
theorem deferred_granted_of_returned {σ V : Type} (now : time_point) (m : Memory V)
    (scheduler : TaskScheduler σ V) (schedule_task : Callable σ V)
    (first_input : Future) (other_inputs : List Future)
    (r : Future × TaskScheduler σ V × Memory V)
    (h : deferred now m scheduler schedule_task first_input other_inputs =
      Outcome.returned r) :
    ∀ k, k < 4 → m.grant (m.requests + k) = true := by
  obtain ⟨call, hcall⟩ := deferred_value_of_returned now m scheduler schedule_task
    first_input other_inputs r h
  subst hcall
  intro k hk
  cases hf : m.grant (m.requests + k)
  · obtain ⟨m1, hp⟩ := deferred_of_refused now m scheduler call
      first_input other_inputs ⟨k, hk, hf⟩
    rw [hp] at h
    cases h
  · rfl

/-! ### The channel -/

/-- Erasure and sharing keep the slot: the erased share of a future is done
exactly when the future is. -/
theorem FutureAny.is_done_of_share {V : Type} (f : Future) (m : Memory V) :
    (FutureAny.of f.share).is_done m = f.is_done m := rfl

/-- The captured list of erased shares is all done exactly when every input
future is done. -/
theorem all_shares_done_iff {V : Type} (first_input : Future) (other_inputs : List Future)
    (m : Memory V) :
    (FutureAny.of first_input.share ::
        other_inputs.map (fun f => FutureAny.of f.share)).all
      (fun future => future.is_done m) = true ↔
    ∀ f ∈ first_input :: other_inputs, f.is_done m = true := by
  simp [FutureAny.is_done_of_share]

/-- Some erased share in the captured list is done exactly when some input
future is done. -/
theorem any_share_done_iff {V : Type} (first_input : Future) (other_inputs : List Future)
    (m : Memory V) :
    (FutureAny.of first_input.share ::
        other_inputs.map (fun f => FutureAny.of f.share)).any
      (fun future => future.is_done m) = true ↔
    ∃ f ∈ first_input :: other_inputs, f.is_done m = true := by
  simp [FutureAny.is_done_of_share]

/-- A completion succeeds exactly on a pending slot, and then writes it. -/
theorem notify_completed_eq_some {V : Type} (p : Promise) (value : Option V)
    (m m2 : Memory V) (h : p.notify_completed value m = some m2) :
    m.slots[p.slot]? = some Slot.pending ∧
      m2 = { m with slots := m.slots.set p.slot (Slot.completed value) } := by
  unfold Promise.notify_completed at h
  split at h
  · next hp => exact ⟨hp, by simpa using h.symm⟩
  · cases h

/-- After a completion the futures on the completed slot are done, and every
other future is done exactly when it was before. -/
theorem is_done_after_notify {V : Type} (p : Promise) (value : Option V)
    (m m2 : Memory V) (h : p.notify_completed value m = some m2) (f : Future) :
    f.is_done m2 = true ↔ (f.is_done m = true ∨ f.slot = p.slot) := by
  obtain ⟨hp, rfl⟩ := notify_completed_eq_some p value m m2 h
  have hlt : p.slot < m.slots.length := by
    rcases Nat.lt_or_ge p.slot m.slots.length with hl | hl
    · exact hl
    · rw [List.getElem?_eq_none hl] at hp
      cases hp
  by_cases hs : f.slot = p.slot
  · simp [Future.is_done, hs, List.getElem?_set, hlt]
  · have hs2 : ¬ p.slot = f.slot := fun e => hs e.symm
    simp [Future.is_done, hs, List.getElem?_set, hs2]


/-! ### Readiness predicates -/

/-- The all-of closure of `await` answers `Yes` exactly when every input
future is done. -/
theorem await_readiness_yes_iff {V : Type} (first_input : Future)
    (other_inputs : List Future) (m : Memory V) (elapsed : nanoseconds) :
    await.readiness_fn
        (FutureAny.of first_input.share ::
          other_inputs.map (fun f => FutureAny.of f.share)) m elapsed = TaskReady.Yes ↔
      ∀ f ∈ first_input :: other_inputs, f.is_done m = true := by
  rw [← all_shares_done_iff]
  simp only [await.readiness_fn]
  split <;> simp_all

/-- The any-of closure of `await_any` answers `Yes` exactly when some input
future is done. -/
theorem await_any_readiness_yes_iff {V : Type} (first_input : Future)
    (other_inputs : List Future) (m : Memory V) (elapsed : nanoseconds) :
    await_any.readiness_fn
        (FutureAny.of first_input.share ::
          other_inputs.map (fun f => FutureAny.of f.share)) m elapsed = TaskReady.Yes ↔
      ∃ f ∈ first_input :: other_inputs, f.is_done m = true := by
  rw [← any_share_done_iff]
  simp only [await_any.readiness_fn]
  split <;> simp_all

/-- The all-of closure of `deferred` answers `Yes` exactly when every input
future is done. -/
theorem deferred_readiness_yes_iff {V : Type} (first_input : Future)
    (other_inputs : List Future) (m : Memory V) (elapsed : nanoseconds) :
    deferred.readiness
        (FutureAny.of first_input.share ::
          other_inputs.map (fun f => FutureAny.of f.share)) m elapsed = TaskReady.Yes ↔
      ∀ f ∈ first_input :: other_inputs, f.is_done m = true := by
  rw [← all_shares_done_iff]
  simp only [deferred.readiness]
  split <;> simp_all

/-- A readiness value is `No` exactly when it is not `Yes`. -/
theorem TaskReady.eq_No_iff (r : TaskReady) : r = TaskReady.No ↔ ¬ r = TaskReady.Yes := by
  cases r <;> simp

/-- C1: the readiness predicate of the Task appended by a call of `await`
that returned answers `Yes` exactly when every input future is done in the
memory it is evaluated on, whatever the elapsed time, and `No` exactly when
some input is not done.  It sees a completion made after the registration:
once the inputs that were pending are completed through their promise, the
predicate answers `Yes`. -/
theorem await_readiness_is_all_of {σ V : Type} (w : Nat) (now : time_point) (m : Memory V)
    (scheduler : TaskScheduler σ V) (task : Callable σ V) (priority : TaskPriority)
    (trace_info : TaskTraceInfo) (first_input : Future) (other_inputs : List Future)
    (future : Future) (scheduler1 : TaskScheduler σ V) (m1 : Memory V)
    (h : await w now m scheduler task priority trace_info first_input other_inputs =
      Outcome.returned (future, scheduler1, m1)) :
    ∃ t, scheduler1.entries = scheduler.entries ++ [t] ∧
      (∀ (later : Memory V) (elapsed : nanoseconds),
        (t.readiness_fn later elapsed = TaskReady.Yes ↔
          ∀ f ∈ first_input :: other_inputs, f.is_done later = true) ∧
        (t.readiness_fn later elapsed = TaskReady.No ↔
          ∃ f ∈ first_input :: other_inputs, f.is_done later = false)) ∧
      (∀ (later later2 : Memory V) (p : Promise) (value : Option V) (elapsed : nanoseconds),
        p.notify_completed value later = some later2 →
        (∀ f ∈ first_input :: other_inputs, f.is_done later = true ∨ f.slot = p.slot) →
        t.readiness_fn later2 elapsed = TaskReady.Yes) := by
  have hg := await_granted_of_returned w now m scheduler task priority trace_info
    first_input other_inputs _ h
  rw [await_of_granted w now m scheduler task priority trace_info first_input other_inputs hg]
    at h
  injection h with h
  injection h with h1 h2
  injection h2 with h2 h3
  subst h1 h2 h3
  refine ⟨_, rfl, ?_, ?_⟩
  · intro later elapsed
    dsimp only
    rw [TaskReady.eq_No_iff, await_readiness_yes_iff]
    refine ⟨Iff.rfl, ?_⟩
    simp only [not_forall, Bool.not_eq_true, exists_prop]
  · intro later later2 p value elapsed hn hall
    dsimp only
    rw [await_readiness_yes_iff]
    intro f hf
    exact (is_done_after_notify p value later later2 hn f).mpr (hall f hf)

/-- Witness of C1 on the scenario of section 8: `await` over A and B with the
continuation `sum`. -/
theorem await_readiness_is_all_of_witness :
    ∃ future scheduler1 m1,
      await 64 0 (scenario.memory [Slot.pending, Slot.pending]) (scenario.scheduler 0)
          scenario.sum scenario.priority scenario.trace_info scenario.A [scenario.B] =
        Outcome.returned (future, scheduler1, m1) ∧
      ∃ t, scheduler1.entries = (scenario.scheduler 0).entries ++ [t] ∧
        (∀ (later : Memory Int) (elapsed : nanoseconds),
          (t.readiness_fn later elapsed = TaskReady.Yes ↔
            ∀ f ∈ [scenario.A, scenario.B], f.is_done later = true) ∧
          (t.readiness_fn later elapsed = TaskReady.No ↔
            ∃ f ∈ [scenario.A, scenario.B], f.is_done later = false)) ∧
        (∀ (later later2 : Memory Int) (p : Promise) (value : Option Int)
            (elapsed : nanoseconds),
          p.notify_completed value later = some later2 →
          (∀ f ∈ [scenario.A, scenario.B], f.is_done later = true ∨ f.slot = p.slot) →
          t.readiness_fn later2 elapsed = TaskReady.Yes) :=
  ⟨_, _, _, rfl,
    await_readiness_is_all_of 64 0 (scenario.memory [Slot.pending, Slot.pending])
      (scenario.scheduler 0) scenario.sum scenario.priority scenario.trace_info scenario.A
      [scenario.B] _ _ _ rfl⟩


/-- C2: the readiness predicate of the Task appended by a call of `await_any`
that returned answers `Yes` exactly when at least one input future is done in
the memory it is evaluated on, and `No` exactly when all of them are
pending. -/
theorem await_any_readiness_is_any_of {σ V : Type} (w : Nat) (now : time_point)
    (m : Memory V) (scheduler : TaskScheduler σ V) (task : Callable σ V)
    (priority : TaskPriority) (trace_info : TaskTraceInfo) (first_input : Future)
    (other_inputs : List Future)
    (future : Future) (scheduler1 : TaskScheduler σ V) (m1 : Memory V)
    (h : await_any w now m scheduler task priority trace_info first_input other_inputs =
      Outcome.returned (future, scheduler1, m1)) :
    ∃ t, scheduler1.entries = scheduler.entries ++ [t] ∧
      ∀ (later : Memory V) (elapsed : nanoseconds),
        (t.readiness_fn later elapsed = TaskReady.Yes ↔
          ∃ f ∈ first_input :: other_inputs, f.is_done later = true) ∧
        (t.readiness_fn later elapsed = TaskReady.No ↔
          ∀ f ∈ first_input :: other_inputs, f.is_done later = false) := by
  have hg := await_any_granted_of_returned w now m scheduler task priority trace_info
    first_input other_inputs _ h
  rw [await_any_of_granted w now m scheduler task priority trace_info first_input
    other_inputs hg] at h
  injection h with h
  injection h with h1 h2
  injection h2 with h2 h3
  subst h1 h2 h3
  refine ⟨_, rfl, ?_⟩
  intro later elapsed
  dsimp only
  rw [TaskReady.eq_No_iff, await_any_readiness_yes_iff]
  refine ⟨Iff.rfl, ?_⟩
  simp only [not_exists, not_and, Bool.not_eq_true]

/-- Witness of C2 on the scenario of section 8: `await_any` over A and B with
the continuation `first_ready_doubled`. -/
theorem await_any_readiness_is_any_of_witness :
    ∃ future scheduler1 m1,
      await_any 64 0 (scenario.memory [Slot.pending, Slot.pending]) (scenario.scheduler 0)
          scenario.first_ready_doubled scenario.priority scenario.trace_info scenario.A
          [scenario.B] =
        Outcome.returned (future, scheduler1, m1) ∧
      ∃ t, scheduler1.entries = (scenario.scheduler 0).entries ++ [t] ∧
        ∀ (later : Memory Int) (elapsed : nanoseconds),
          (t.readiness_fn later elapsed = TaskReady.Yes ↔
            ∃ f ∈ [scenario.A, scenario.B], f.is_done later = true) ∧
          (t.readiness_fn later elapsed = TaskReady.No ↔
            ∀ f ∈ [scenario.A, scenario.B], f.is_done later = false) :=
  ⟨_, _, _, rfl,
    await_any_readiness_is_any_of 64 0 (scenario.memory [Slot.pending, Slot.pending])
      (scenario.scheduler 0) scenario.first_ready_doubled scenario.priority
      scenario.trace_info scenario.A [scenario.B] _ _ _ rfl⟩

/-- C9: the readiness predicate of the DeferredTask appended by a call of
`deferred` that returned answers `Yes` exactly when every input future is done
in the memory it is evaluated on. -/
theorem deferred_readiness_is_all_of {σ V : Type} (now : time_point) (m : Memory V)
    (scheduler : TaskScheduler σ V) (schedule_task : Callable σ V)
    (first_input : Future) (other_inputs : List Future)
    (future : Future) (scheduler1 : TaskScheduler σ V) (m1 : Memory V)
    (h : deferred now m scheduler schedule_task first_input other_inputs =
      Outcome.returned (future, scheduler1, m1)) :
    ∃ d, scheduler1.deferred_entries = scheduler.deferred_entries ++ [d] ∧
      ∀ (later : Memory V) (elapsed : nanoseconds),
        (d.readiness later elapsed = TaskReady.Yes ↔
          ∀ f ∈ first_input :: other_inputs, f.is_done later = true) := by
  obtain ⟨call, hcall⟩ := deferred_value_of_returned now m scheduler schedule_task
    first_input other_inputs _ h
  subst hcall
  have hg := deferred_granted_of_returned now m scheduler (Callable.returns_value call)
    first_input other_inputs _ h
  rw [deferred_of_granted now m scheduler call first_input other_inputs hg] at h
  injection h with h
  injection h with h1 h2
  injection h2 with h2 h3
  subst h1 h2 h3
  refine ⟨_, rfl, ?_⟩
  intro later elapsed
  dsimp only
  rw [deferred_readiness_yes_iff]

/-- Witness of C9: `deferred` over A and B with the callable `sum`. -/
theorem deferred_readiness_is_all_of_witness :
    ∃ future scheduler1 m1,
      deferred 0 (scenario.memory [Slot.pending, Slot.pending]) (scenario.scheduler 0)
          scenario.sum scenario.A [scenario.B] =
        Outcome.returned (future, scheduler1, m1) ∧
      ∃ d, scheduler1.deferred_entries = (scenario.scheduler 0).deferred_entries ++ [d] ∧
        ∀ (later : Memory Int) (elapsed : nanoseconds),
          (d.readiness later elapsed = TaskReady.Yes ↔
            ∀ f ∈ [scenario.A, scenario.B], f.is_done later = true) :=
  ⟨_, _, _, rfl,
    deferred_readiness_is_all_of 0 (scenario.memory [Slot.pending, Slot.pending])
      (scenario.scheduler 0) scenario.sum scenario.A [scenario.B] _ _ _ rfl⟩

/-! ### Frame of a registration -/

/-- C7: a call of `await` or `await_any` that returned has put exactly one
Task after the last of `entries`; the entries before it are the old ones in
their order, the new Task carries the priority and the trace information of
the call and, as its TaskId, the value `next_task_id` had at the call;
`deferred_entries` is as it was. -/
theorem await_appends_one_task {σ V : Type} (w : Nat) (now : time_point) (m : Memory V)
    (scheduler : TaskScheduler σ V) (task : Callable σ V) (priority : TaskPriority)
    (trace_info : TaskTraceInfo) (first_input : Future) (other_inputs : List Future)
    (future : Future) (scheduler1 : TaskScheduler σ V) (m1 : Memory V)
    (h : await w now m scheduler task priority trace_info first_input other_inputs =
        Outcome.returned (future, scheduler1, m1) ∨
      await_any w now m scheduler task priority trace_info first_input other_inputs =
        Outcome.returned (future, scheduler1, m1)) :
    ∃ t, scheduler1.entries = scheduler.entries ++ [t] ∧
      t.priority = priority ∧ t.trace_info = trace_info ∧
      t.task_id = ⟨scheduler.next_task_id⟩ ∧
      scheduler1.deferred_entries = scheduler.deferred_entries := by
  rcases h with h | h
  · have hg := await_granted_of_returned w now m scheduler task priority trace_info
      first_input other_inputs _ h
    rw [await_of_granted w now m scheduler task priority trace_info first_input
      other_inputs hg] at h
    injection h with h
    injection h with h1 h2
    injection h2 with h2 h3
    subst h1 h2 h3
    exact ⟨_, rfl, rfl, rfl, rfl, rfl⟩
  · have hg := await_any_granted_of_returned w now m scheduler task priority trace_info
      first_input other_inputs _ h
    rw [await_any_of_granted w now m scheduler task priority trace_info first_input
      other_inputs hg] at h
    injection h with h
    injection h with h1 h2
    injection h2 with h2 h3
    subst h1 h2 h3
    exact ⟨_, rfl, rfl, rfl, rfl, rfl⟩

/-- Witness of C7: a call of `await` and a call of `await_any` on a scheduler
whose next id is 7. -/
theorem await_appends_one_task_witness :
    (∃ future scheduler1 m1,
      await 64 0 (scenario.memory [Slot.pending, Slot.pending]) (scenario.scheduler 7)
          scenario.sum scenario.priority scenario.trace_info scenario.A [scenario.B] =
        Outcome.returned (future, scheduler1, m1) ∧
      ∃ t, scheduler1.entries = (scenario.scheduler 7).entries ++ [t] ∧
        t.priority = scenario.priority ∧ t.trace_info = scenario.trace_info ∧
        t.task_id = ⟨7⟩ ∧
        scheduler1.deferred_entries = (scenario.scheduler 7).deferred_entries) ∧
    (∃ future scheduler1 m1,
      await_any 64 0 (scenario.memory [Slot.pending, Slot.pending]) (scenario.scheduler 7)
          scenario.sum scenario.priority scenario.trace_info scenario.A [scenario.B] =
        Outcome.returned (future, scheduler1, m1) ∧
      ∃ t, scheduler1.entries = (scenario.scheduler 7).entries ++ [t] ∧
        t.priority = scenario.priority ∧ t.trace_info = scenario.trace_info ∧
        t.task_id = ⟨7⟩ ∧
        scheduler1.deferred_entries = (scenario.scheduler 7).deferred_entries) :=
  ⟨⟨_, _, _, rfl,
      await_appends_one_task 64 0 (scenario.memory [Slot.pending, Slot.pending])
        (scenario.scheduler 7) scenario.sum scenario.priority scenario.trace_info scenario.A
        [scenario.B] _ _ _ (Or.inl rfl)⟩,
    ⟨_, _, _, rfl,
      await_appends_one_task 64 0 (scenario.memory [Slot.pending, Slot.pending])
        (scenario.scheduler 7) scenario.sum scenario.priority scenario.trace_info scenario.A
        [scenario.B] _ _ _ (Or.inr rfl)⟩⟩

/-- C8: a call of `deferred` that returned has put exactly one DeferredTask
after the last of `deferred_entries`, the ones before it being the old ones in
their order, and has changed nothing else in the scheduler: `entries`,
`next_task_id` and the allocator are as they were. -/
theorem deferred_appends_one_deferred_task {σ V : Type} (now : time_point) (m : Memory V)
    (scheduler : TaskScheduler σ V) (schedule_task : Callable σ V)
    (first_input : Future) (other_inputs : List Future)
    (future : Future) (scheduler1 : TaskScheduler σ V) (m1 : Memory V)
    (h : deferred now m scheduler schedule_task first_input other_inputs =
      Outcome.returned (future, scheduler1, m1)) :
    ∃ d, scheduler1 =
        { scheduler with deferred_entries := scheduler.deferred_entries ++ [d] } ∧
      scheduler1.deferred_entries = scheduler.deferred_entries ++ [d] ∧
      scheduler1.entries = scheduler.entries ∧
      scheduler1.next_task_id = scheduler.next_task_id ∧
      scheduler1.allocator = scheduler.allocator := by
  obtain ⟨call, hcall⟩ := deferred_value_of_returned now m scheduler schedule_task
    first_input other_inputs _ h
  subst hcall
  have hg := deferred_granted_of_returned now m scheduler (Callable.returns_value call)
    first_input other_inputs _ h
  rw [deferred_of_granted now m scheduler call first_input other_inputs hg] at h
  injection h with h
  injection h with h1 h2
  injection h2 with h2 h3
  subst h1 h2 h3
  exact ⟨_, rfl, rfl, rfl, rfl, rfl⟩

/-- Witness of C8: a call of `deferred` on a scheduler whose next id is 7. -/
theorem deferred_appends_one_deferred_task_witness :
    ∃ future scheduler1 m1,
      deferred 0 (scenario.memory [Slot.pending, Slot.pending]) (scenario.scheduler 7)
          scenario.sum scenario.A [scenario.B] =
        Outcome.returned (future, scheduler1, m1) ∧
      ∃ d, scheduler1 =
          { scenario.scheduler 7 with
            deferred_entries := (scenario.scheduler 7).deferred_entries ++ [d] } ∧
        scheduler1.deferred_entries = (scenario.scheduler 7).deferred_entries ++ [d] ∧
        scheduler1.entries = (scenario.scheduler 7).entries ∧
        scheduler1.next_task_id = (scenario.scheduler 7).next_task_id ∧
        scheduler1.allocator = (scenario.scheduler 7).allocator :=
  ⟨_, _, _, rfl,
    deferred_appends_one_deferred_task 0 (scenario.memory [Slot.pending, Slot.pending])
      (scenario.scheduler 7) scenario.sum scenario.A [scenario.B] _ _ _ rfl⟩


/-! ### Closures -/

/-- A completion of a pending slot succeeds and writes the slot. -/
theorem notify_completed_of_pending {V : Type} (p : Promise) (value : Option V)
    (m : Memory V) (hp : m.slots[p.slot]? = some Slot.pending) :
    p.notify_completed value m =
      some { m with slots := m.slots.set p.slot (Slot.completed value) } := by
  simp [Promise.notify_completed, hp]

/-- A slot that holds something is a slot of the memory. -/
theorem slot_lt_of_getElem? {V : Type} (m : Memory V) (i : Nat) (s : Slot V)
    (hp : m.slots[i]? = some s) : i < m.slots.length := by
  rcases Nat.lt_or_ge i m.slots.length with hl | hl
  · exact hl
  · rw [List.getElem?_eq_none hl] at hp
    cases hp

/-- A future on a slot that has just been written is done. -/
theorem is_done_of_written {V : Type} (f : Future) (value : Option V) (m : Memory V)
    (hp : m.slots[f.slot]? = some Slot.pending) :
    f.is_done { m with slots := m.slots.set f.slot (Slot.completed value) } = true := by
  have hlt := slot_lt_of_getElem? m f.slot _ hp
  simp [Future.is_done, List.getElem?_set, hlt]

/-- A future on a slot that has just been written holds what was written. -/
theorem fetch_of_written {V : Type} (f : Future) (value : Option V) (m : Memory V)
    (hp : m.slots[f.slot]? = some Slot.pending) :
    f.fetch { m with slots := m.slots.set f.slot (Slot.completed value) } = some value := by
  have hlt := slot_lt_of_getElem? m f.slot _ hp
  simp [Future.fetch, List.getElem?_set, hlt]

/-- C3: take the Task appended by a call of `await` that returned, and invoke
its closure in a memory where the slot of the returned future is still
pending (as it is right after the call).  The closure makes one call of the
task, on the input futures in the order of the call, then writes the slot once:
with the result of that call when the task returns a value, without value when
the output is void.  Afterwards the returned future is done and holds that. -/
theorem await_closure_applies_task_once {σ V : Type} (w : Nat) (now : time_point)
    (m : Memory V) (scheduler : TaskScheduler σ V) (task : Callable σ V)
    (priority : TaskPriority) (trace_info : TaskTraceInfo) (first_input : Future)
    (other_inputs : List Future)
    (future : Future) (scheduler1 : TaskScheduler σ V) (m1 : Memory V)
    (h : await w now m scheduler task priority trace_info first_input other_inputs =
      Outcome.returned (future, scheduler1, m1)) :
    ∃ t, scheduler1.entries = scheduler.entries ++ [t] ∧
      m1.slots[future.slot]? = some Slot.pending ∧
      ∀ (later : Memory V) (u : σ), later.slots[future.slot]? = some Slot.pending →
        (∀ call, task = Callable.returns_value call →
          ∃ later1,
            t.fn (later, u) = Outcome.returned
              (later1, (call later (Invocation.apply (first_input :: other_inputs)) u).2) ∧
            later1 = { later with slots := later.slots.set future.slot (Slot.completed
              (some (call later (Invocation.apply (first_input :: other_inputs)) u).1)) } ∧
            future.is_done later1 = true ∧
            future.fetch later1 =
              some (some (call later (Invocation.apply (first_input :: other_inputs)) u).1)) ∧
        (∀ call, task = Callable.returns_void call →
          ∃ later1,
            t.fn (later, u) = Outcome.returned
              (later1, call later (Invocation.apply (first_input :: other_inputs)) u) ∧
            later1 =
              { later with slots := later.slots.set future.slot (Slot.completed none) } ∧
            future.is_done later1 = true ∧
            future.fetch later1 = some none) := by
  have hg := await_granted_of_returned w now m scheduler task priority trace_info
    first_input other_inputs _ h
  rw [await_of_granted w now m scheduler task priority trace_info first_input
    other_inputs hg] at h
  injection h with h
  injection h with h1 h2
  injection h2 with h2 h3
  subst h1 h2 h3
  refine ⟨_, rfl, by simp, ?_⟩
  intro later u hp
  constructor
  · intro call hc
    subst hc
    refine ⟨_, ?_, rfl, is_done_of_written _ _ later hp, fetch_of_written _ _ later hp⟩
    simp only [await.fn, notify_completed_of_pending _ _ later hp]
  · intro call hc
    subst hc
    refine ⟨_, ?_, rfl, is_done_of_written _ _ later hp, fetch_of_written _ _ later hp⟩
    simp only [await.fn, notify_completed_of_pending _ _ later hp]


/-- Witness of C3, the scenario of section 8: `await` over A and B with the
continuation `sum`.  After A is completed with 3 the returned future is not
done; after B is completed with 4 the Task is ready, its closure calls `sum`
once on A and B, and the returned future is done and holds 7. -/
theorem await_closure_applies_task_once_witness :
    ∃ future scheduler1 m1,
      await 64 0 (scenario.memory [Slot.pending, Slot.pending]) (scenario.scheduler 0)
          scenario.sum scenario.priority scenario.trace_info scenario.A [scenario.B] =
        Outcome.returned (future, scheduler1, m1) ∧
      (∃ t, scheduler1.entries = (scenario.scheduler 0).entries ++ [t] ∧
        m1.slots[future.slot]? = some Slot.pending ∧
        ∀ (later : Memory Int) (u : List Invocation),
          later.slots[future.slot]? = some Slot.pending →
          (∀ call, scenario.sum = Callable.returns_value call →
            ∃ later1,
              t.fn (later, u) = Outcome.returned
                (later1, (call later (Invocation.apply [scenario.A, scenario.B]) u).2) ∧
              later1 = { later with slots := later.slots.set future.slot (Slot.completed
                (some (call later (Invocation.apply [scenario.A, scenario.B]) u).1)) } ∧
              future.is_done later1 = true ∧
              future.fetch later1 =
                some (some (call later (Invocation.apply [scenario.A, scenario.B]) u).1)) ∧
          (∀ call, scenario.sum = Callable.returns_void call →
            ∃ later1,
              t.fn (later, u) = Outcome.returned
                (later1, call later (Invocation.apply [scenario.A, scenario.B]) u) ∧
              later1 =
                { later with slots := later.slots.set future.slot (Slot.completed none) } ∧
              future.is_done later1 = true ∧
              future.fetch later1 = some none)) ∧
      (∃ t mA mB mC, scheduler1.entries = [t] ∧
        (⟨scenario.A.slot⟩ : Promise).notify_completed (some 3) m1 = some mA ∧
        future.is_done mA = false ∧
        (⟨scenario.B.slot⟩ : Promise).notify_completed (some 4) mA = some mB ∧
        t.readiness_fn mB 0 = TaskReady.Yes ∧
        t.fn (mB, []) =
          Outcome.returned (mC, [Invocation.apply [scenario.A, scenario.B]]) ∧
        future.is_done mC = true ∧
        future.fetch mC = some (some 7)) :=
  ⟨_, _, _, rfl,
    await_closure_applies_task_once 64 0 (scenario.memory [Slot.pending, Slot.pending])
      (scenario.scheduler 0) scenario.sum scenario.priority scenario.trace_info scenario.A
      [scenario.B] _ _ _ rfl,
    ⟨_, _, _, _, rfl, rfl, rfl, rfl, rfl, rfl, rfl, rfl⟩⟩

/-- C10: take the Task appended by a call of `await_any` that returned, and
invoke its closure in a memory where the slot of the returned future is still
pending, whatever the state of the input futures.  The closure makes one call
of the task on all the input futures, in the order of the call, then writes the
slot once with the result, so the returned future is done and holds it. -/
theorem await_any_closure_passes_all_inputs {σ V : Type} (w : Nat) (now : time_point)
    (m : Memory V) (scheduler : TaskScheduler σ V) (task : Callable σ V)
    (priority : TaskPriority) (trace_info : TaskTraceInfo) (first_input : Future)
    (other_inputs : List Future)
    (future : Future) (scheduler1 : TaskScheduler σ V) (m1 : Memory V)
    (h : await_any w now m scheduler task priority trace_info first_input other_inputs =
      Outcome.returned (future, scheduler1, m1)) :
    ∃ t, scheduler1.entries = scheduler.entries ++ [t] ∧
      m1.slots[future.slot]? = some Slot.pending ∧
      ∀ (later : Memory V) (u : σ), later.slots[future.slot]? = some Slot.pending →
        (∀ call, task = Callable.returns_value call →
          ∃ later1,
            t.fn (later, u) = Outcome.returned
              (later1, (call later (Invocation.apply (first_input :: other_inputs)) u).2) ∧
            later1 = { later with slots := later.slots.set future.slot (Slot.completed
              (some (call later (Invocation.apply (first_input :: other_inputs)) u).1)) } ∧
            future.is_done later1 = true ∧
            future.fetch later1 =
              some (some (call later (Invocation.apply (first_input :: other_inputs)) u).1)) ∧
        (∀ call, task = Callable.returns_void call →
          ∃ later1,
            t.fn (later, u) = Outcome.returned
              (later1, call later (Invocation.apply (first_input :: other_inputs)) u) ∧
            later1 =
              { later with slots := later.slots.set future.slot (Slot.completed none) } ∧
            future.is_done later1 = true ∧
            future.fetch later1 = some none) := by
  have hg := await_any_granted_of_returned w now m scheduler task priority trace_info
    first_input other_inputs _ h
  rw [await_any_of_granted w now m scheduler task priority trace_info first_input
    other_inputs hg] at h
  injection h with h
  injection h with h1 h2
  injection h2 with h2 h3
  subst h1 h2 h3
  refine ⟨_, rfl, by simp, ?_⟩
  intro later u hp
  constructor
  · intro call hc
    subst hc
    refine ⟨_, ?_, rfl, is_done_of_written _ _ later hp, fetch_of_written _ _ later hp⟩
    simp only [await_any.fn, notify_completed_of_pending _ _ later hp]
  · intro call hc
    subst hc
    refine ⟨_, ?_, rfl, is_done_of_written _ _ later hp, fetch_of_written _ _ later hp⟩
    simp only [await_any.fn, notify_completed_of_pending _ _ later hp]

/-- Witness of C10, the scenario of section 8: `await_any` over A and B with
the continuation `first_ready_doubled`.  Only B is completed, with 10.  The
Task is then ready, its closure calls the continuation once on both A and B,
A still pending, and the returned future is done and holds 20. -/
theorem await_any_closure_passes_all_inputs_witness :
    ∃ future scheduler1 m1,
      await_any 64 0 (scenario.memory [Slot.pending, Slot.pending]) (scenario.scheduler 0)
          scenario.first_ready_doubled scenario.priority scenario.trace_info scenario.A
          [scenario.B] =
        Outcome.returned (future, scheduler1, m1) ∧
      (∃ t, scheduler1.entries = (scenario.scheduler 0).entries ++ [t] ∧
        m1.slots[future.slot]? = some Slot.pending ∧
        ∀ (later : Memory Int) (u : List Invocation),
          later.slots[future.slot]? = some Slot.pending →
          (∀ call, scenario.first_ready_doubled = Callable.returns_value call →
            ∃ later1,
              t.fn (later, u) = Outcome.returned
                (later1, (call later (Invocation.apply [scenario.A, scenario.B]) u).2) ∧
              later1 = { later with slots := later.slots.set future.slot (Slot.completed
                (some (call later (Invocation.apply [scenario.A, scenario.B]) u).1)) } ∧
              future.is_done later1 = true ∧
              future.fetch later1 =
                some (some (call later (Invocation.apply [scenario.A, scenario.B]) u).1)) ∧
          (∀ call, scenario.first_ready_doubled = Callable.returns_void call →
            ∃ later1,
              t.fn (later, u) = Outcome.returned
                (later1, call later (Invocation.apply [scenario.A, scenario.B]) u) ∧
              later1 =
                { later with slots := later.slots.set future.slot (Slot.completed none) } ∧
              future.is_done later1 = true ∧
              future.fetch later1 = some none)) ∧
      (∃ t mB mC, scheduler1.entries = [t] ∧
        t.readiness_fn m1 0 = TaskReady.No ∧
        (⟨scenario.B.slot⟩ : Promise).notify_completed (some 10) m1 = some mB ∧
        scenario.A.is_done mB = false ∧
        t.readiness_fn mB 0 = TaskReady.Yes ∧
        t.fn (mB, []) =
          Outcome.returned (mC, [Invocation.apply [scenario.A, scenario.B]]) ∧
        future.is_done mC = true ∧
        future.fetch mC = some (some 20)) :=
  ⟨_, _, _, rfl,
    await_any_closure_passes_all_inputs 64 0 (scenario.memory [Slot.pending, Slot.pending])
      (scenario.scheduler 0) scenario.first_ready_doubled scenario.priority
      scenario.trace_info scenario.A [scenario.B] _ _ _ rfl,
    ⟨_, _, _, rfl, rfl, rfl, rfl, rfl, rfl, rfl, rfl⟩⟩


/-- The schedule closure of `deferred` for a callable that returns a value
(lines 54 and 55): one call on the input futures, then one write of the slot
with the result. -/
theorem deferred_schedule_of_value {σ V : Type}
    (call : Memory V → Invocation → σ → V × σ) (await_futures_ : List Future)
    (promise_ : Promise) (later : Memory V) (u : σ)
    (hp : later.slots[promise_.slot]? = some Slot.pending) :
    deferred.schedule call await_futures_ promise_ (later, u) =
      Outcome.returned
        ({ later with
            slots := later.slots.set promise_.slot
              (Slot.completed (some (call later (Invocation.apply await_futures_) u).1)) },
          (call later (Invocation.apply await_futures_) u).2) := by
  simp only [deferred.schedule, notify_completed_of_pending _ _ later hp]

/-- C4: `deferred` called with a `schedule_task` without result, over the
input A, is ill-formed: line 57 of deferred.h passes the void result of the
call as an argument, so nothing is registered and no closure exists that would
complete the promise without value.  The sibling `await`, called with the same
callable over the same input, registers a closure that makes the one call and
completes the promise without value; `deferred` with a `schedule_task` that
returns a value registers a closure that makes the one call and completes the
promise with the result. -/
theorem deferred_without_result_is_ill_formed :
    deferred 0 (scenario.memory [Slot.pending]) (scenario.scheduler 0)
        scenario.no_result scenario.A [] = Outcome.ill_formed ∧
    (¬ ∃ r, deferred 0 (scenario.memory [Slot.pending]) (scenario.scheduler 0)
        scenario.no_result scenario.A [] = Outcome.returned r) ∧
    (∃ future scheduler1 m1 t later,
      await 64 0 (scenario.memory [Slot.pending]) (scenario.scheduler 0)
          scenario.no_result scenario.priority scenario.trace_info scenario.A [] =
        Outcome.returned (future, scheduler1, m1) ∧
      scheduler1.entries = [t] ∧
      t.fn (m1, []) = Outcome.returned (later, [Invocation.apply [scenario.A]]) ∧
      future.fetch later = some none) ∧
    (∃ future scheduler1 m1 d later,
      deferred 0 (scenario.memory [Slot.completed (some 3)]) (scenario.scheduler 0)
          scenario.sum scenario.A [] =
        Outcome.returned (future, scheduler1, m1) ∧
      scheduler1.deferred_entries = [d] ∧
      d.schedule (m1, []) = Outcome.returned (later, [Invocation.apply [scenario.A]]) ∧
      future.fetch later = some (some 3)) :=
  ⟨rfl, fun ⟨_, h⟩ => Outcome.noConfusion h, ⟨_, _, _, _, _, rfl, rfl, rfl, rfl⟩,
    ⟨_, _, _, _, _, rfl, rfl, rfl, rfl⟩⟩

/-! ### Allocation failure -/

/-- C5, as a counterexample: with a memory resource that refuses the request,
`await` does not return anything to its caller, it faults on the `unwrap()` of
the error. -/
theorem await_refused_is_a_fault :
    await 64 0 (scenario.exhausted [Slot.pending, Slot.pending]) (scenario.scheduler 0)
        scenario.sum scenario.priority scenario.trace_info scenario.A [scenario.B] =
      Outcome.panicked (Fault.unwrap_of_err AllocError.NoMemory)
        (scenario.scheduler 1, scenario.exhausted [Slot.pending, Slot.pending]) ∧
    ¬ ∃ r, await 64 0 (scenario.exhausted [Slot.pending, Slot.pending])
        (scenario.scheduler 0) scenario.sum scenario.priority scenario.trace_info
        scenario.A [scenario.B] = Outcome.returned r :=
  ⟨rfl, fun ⟨_, h⟩ => Outcome.noConfusion h⟩

/-- C5, amended: each of `await`, `await_any` and `deferred` makes four
requests to the memory resource (readiness predicate, promise, closure, growth
of the registry).  The call faults on the `unwrap()` of the allocation error
exactly when one of the four is refused, and returns to its caller, with the
output future, exactly when the four are granted: a refusal never reaches the
caller as a value.  For `deferred` the calls are those with a `schedule_task`
that returns a value, the only ones there are. -/
theorem refused_allocation_faults {σ V : Type} (w : Nat) (now : time_point) (m : Memory V)
    (scheduler : TaskScheduler σ V) (task : Callable σ V) (priority : TaskPriority)
    (trace_info : TaskTraceInfo) (first_input : Future) (other_inputs : List Future)
    (call : Memory V → Invocation → σ → V × σ) :
    (((∃ k, k < 4 ∧ m.grant (m.requests + k) = false) ↔
        ∃ st, await w now m scheduler task priority trace_info first_input other_inputs =
          Outcome.panicked (Fault.unwrap_of_err AllocError.NoMemory) st) ∧
      ((∀ k, k < 4 → m.grant (m.requests + k) = true) ↔
        ∃ r, await w now m scheduler task priority trace_info first_input other_inputs =
          Outcome.returned r)) ∧
    (((∃ k, k < 4 ∧ m.grant (m.requests + k) = false) ↔
        ∃ st, await_any w now m scheduler task priority trace_info first_input other_inputs =
          Outcome.panicked (Fault.unwrap_of_err AllocError.NoMemory) st) ∧
      ((∀ k, k < 4 → m.grant (m.requests + k) = true) ↔
        ∃ r, await_any w now m scheduler task priority trace_info first_input other_inputs =
          Outcome.returned r)) ∧
    (((∃ k, k < 4 ∧ m.grant (m.requests + k) = false) ↔
        ∃ st, deferred now m scheduler (Callable.returns_value call) first_input
            other_inputs =
          Outcome.panicked (Fault.unwrap_of_err AllocError.NoMemory) st) ∧
      ((∀ k, k < 4 → m.grant (m.requests + k) = true) ↔
        ∃ r, deferred now m scheduler (Callable.returns_value call) first_input
            other_inputs =
          Outcome.returned r)) := by
  have hdich : (∀ k, k < 4 → m.grant (m.requests + k) = true) ∨
      (∃ k, k < 4 ∧ m.grant (m.requests + k) = false) := by
    by_cases hall : ∀ k, k < 4 → m.grant (m.requests + k) = true
    · exact Or.inl hall
    · right
      push_neg at hall
      obtain ⟨k, hk, hf⟩ := hall
      exact ⟨k, hk, by simpa using hf⟩
  have hexcl : (∀ k, k < 4 → m.grant (m.requests + k) = true) →
      ¬ (∃ k, k < 4 ∧ m.grant (m.requests + k) = false) := by
    rintro hall ⟨k, hk, hf⟩
    rw [hall k hk] at hf
    cases hf
  refine ⟨⟨⟨?_, ?_⟩, ⟨?_, ?_⟩⟩, ⟨⟨?_, ?_⟩, ⟨?_, ?_⟩⟩, ⟨⟨?_, ?_⟩, ⟨?_, ?_⟩⟩⟩
  · intro hr
    obtain ⟨m1, h1⟩ := await_of_refused w now m scheduler task priority trace_info
      first_input other_inputs hr
    exact ⟨_, h1⟩
  · rintro ⟨st, hst⟩
    rcases hdich with hall | hr
    · rw [await_of_granted w now m scheduler task priority trace_info first_input
        other_inputs hall] at hst
      cases hst
    · exact hr
  · intro hall
    exact ⟨_, await_of_granted w now m scheduler task priority trace_info first_input
      other_inputs hall⟩
  · rintro ⟨r, hr⟩
    exact await_granted_of_returned w now m scheduler task priority trace_info
      first_input other_inputs r hr
  · intro hr
    obtain ⟨m1, h1⟩ := await_any_of_refused w now m scheduler task priority trace_info
      first_input other_inputs hr
    exact ⟨_, h1⟩
  · rintro ⟨st, hst⟩
    rcases hdich with hall | hr
    · rw [await_any_of_granted w now m scheduler task priority trace_info first_input
        other_inputs hall] at hst
      cases hst
    · exact hr
  · intro hall
    exact ⟨_, await_any_of_granted w now m scheduler task priority trace_info first_input
      other_inputs hall⟩
  · rintro ⟨r, hr⟩
    exact await_any_granted_of_returned w now m scheduler task priority trace_info
      first_input other_inputs r hr
  · intro hr
    obtain ⟨m1, h1⟩ := deferred_of_refused now m scheduler call first_input other_inputs hr
    exact ⟨_, h1⟩
  · rintro ⟨st, hst⟩
    rcases hdich with hall | hr
    · rw [deferred_of_granted now m scheduler call first_input other_inputs hall] at hst
      cases hst
    · exact hr
  · intro hall
    exact ⟨_, deferred_of_granted now m scheduler call first_input other_inputs hall⟩
  · rintro ⟨r, hr⟩
    exact deferred_granted_of_returned now m scheduler (Callable.returns_value call)
      first_input other_inputs r hr


/-! ### Task ids -/

/-- A call whose state is returned has returned a future with that state. -/
theorem Outcome.state_eq_returned {ρ α β : Type} (o : Outcome ρ (α × β)) (b : β)
    (h : o.state = Outcome.returned b) : ∃ a, o = Outcome.returned (a, b) := by
  cases o with
  | returned value =>
    obtain ⟨a, b1⟩ := value
    simp only [Outcome.state] at h
    injection h with h
    subst h
    exact ⟨a, rfl⟩
  | panicked fault at_fault => cases h
  | ill_formed => cases h

/-- What one call that returned has done to `entries` and to `next_task_id`:
`await` and `await_any` append one Task that carries the value of the counter
and advance the counter by one, modulo two to the width; `deferred` leaves
both as they were. -/
theorem perform_returned {σ V : Type} (w : Nat) (c : Registration σ V)
    (st st1 : TaskScheduler σ V × Memory V) (h : c.perform w st = Outcome.returned st1) :
    (c.registers_task = true ∧
      ∃ t, st1.1.entries = st.1.entries ++ [t] ∧ t.task_id = ⟨st.1.next_task_id⟩ ∧
        st1.1.next_task_id = (st.1.next_task_id + 1) % 2 ^ w) ∨
    (c.registers_task = false ∧ st1.1.entries = st.1.entries ∧
      st1.1.next_task_id = st.1.next_task_id) := by
  cases c with
  | await now task priority trace_info first_input other_inputs =>
    left
    obtain ⟨a, ha⟩ := Outcome.state_eq_returned _ _ h
    have hg := await_granted_of_returned w now st.2 st.1 task priority trace_info
      first_input other_inputs _ ha
    rw [await_of_granted w now st.2 st.1 task priority trace_info first_input
      other_inputs hg] at ha
    injection ha with ha
    injection ha with h1 h2
    subst h2
    exact ⟨rfl, _, rfl, rfl, rfl⟩
  | await_any now task priority trace_info first_input other_inputs =>
    left
    obtain ⟨a, ha⟩ := Outcome.state_eq_returned _ _ h
    have hg := await_any_granted_of_returned w now st.2 st.1 task priority trace_info
      first_input other_inputs _ ha
    rw [await_any_of_granted w now st.2 st.1 task priority trace_info first_input
      other_inputs hg] at ha
    injection ha with ha
    injection ha with h1 h2
    subst h2
    exact ⟨rfl, _, rfl, rfl, rfl⟩
  | deferred now schedule_task first_input other_inputs =>
    right
    obtain ⟨a, ha⟩ := Outcome.state_eq_returned _ _ h
    obtain ⟨call, hcall⟩ := deferred_value_of_returned now st.2 st.1 schedule_task
      first_input other_inputs _ ha
    subst hcall
    have hg := deferred_granted_of_returned now st.2 st.1 (Callable.returns_value call)
      first_input other_inputs _ ha
    rw [deferred_of_granted now st.2 st.1 call first_input other_inputs hg] at ha
    injection ha with ha
    injection ha with h1 h2
    subst h2
    exact ⟨rfl, rfl, rfl⟩

/-- A sequence of calls that returns has performed its first call and then
the rest. -/
theorem perform_all_cons_returned {σ V : Type} (w : Nat) (c : Registration σ V)
    (cs : List (Registration σ V)) (st st1 : TaskScheduler σ V × Memory V)
    (h : perform_all w (c :: cs) st = Outcome.returned st1) :
    ∃ st2, c.perform w st = Outcome.returned st2 ∧
      perform_all w cs st2 = Outcome.returned st1 := by
  simp only [perform_all] at h
  cases hc : c.perform w st with
  | returned st2 =>
    rw [hc] at h
    exact ⟨st2, rfl, h⟩
  | panicked fault at_fault =>
    rw [hc] at h
    cases h
  | ill_formed =>
    rw [hc] at h
    cases h

/-- The ids handed out by a sequence of calls that all return, as long as the
counter does not wrap: the appended Tasks carry the consecutive values of the
counter, starting with its value at the first call. -/
theorem perform_all_ids {σ V : Type} (w : Nat) (calls : List (Registration σ V)) :
    ∀ (st st1 : TaskScheduler σ V × Memory V),
      perform_all w calls st = Outcome.returned st1 →
      st.1.next_task_id < 2 ^ w →
      st.1.next_task_id + (calls.filter Registration.registers_task).length ≤ 2 ^ w →
      ∃ appended : List (Task σ V),
        st1.1.entries = st.1.entries ++ appended ∧
        appended.map (fun t => t.task_id.id) =
          List.range' st.1.next_task_id (calls.filter Registration.registers_task).length ∧
        st1.1.next_task_id =
          (st.1.next_task_id + (calls.filter Registration.registers_task).length) % 2 ^ w := by
  induction calls with
  | nil =>
    intro st st1 h hwf hw
    simp only [perform_all] at h
    injection h with h
    subst h
    refine ⟨[], by simp, by simp, ?_⟩
    simp only [List.filter_nil, List.length_nil, Nat.add_zero]
    exact (Nat.mod_eq_of_lt hwf).symm
  | cons c cs ih =>
    intro st st1 h hwf hw
    obtain ⟨st2, hc, hrest⟩ := perform_all_cons_returned w c cs st st1 h
    have hpos : 0 < 2 ^ w := Nat.pow_pos (by decide)
    rcases perform_returned w c st st2 hc with ⟨hreg, t, hent, hid, hnext⟩ | ⟨hreg, hent, hnext⟩
    · simp only [List.filter_cons, hreg, if_true, List.length_cons] at hw ⊢
      have hwf2 : st2.1.next_task_id < 2 ^ w := by
        rw [hnext]
        exact Nat.mod_lt _ hpos
      have hw2 : st2.1.next_task_id +
          (cs.filter Registration.registers_task).length ≤ 2 ^ w := by
        rw [hnext]
        rcases Nat.lt_or_ge (st.1.next_task_id + 1) (2 ^ w) with hlt | hge
        · rw [Nat.mod_eq_of_lt hlt]
          omega
        · have heq : st.1.next_task_id + 1 = 2 ^ w := by omega
          rw [heq, Nat.mod_self]
          omega
      obtain ⟨appended, happ, hids, hfin⟩ := ih st2 st1 hrest hwf2 hw2
      refine ⟨t :: appended, ?_, ?_, ?_⟩
      · rw [happ, hent]
        simp
      · simp only [List.map_cons, hid, List.range'_succ]
        congr 1
        rw [hids]
        rcases Nat.eq_zero_or_pos (cs.filter Registration.registers_task).length with hz | hp
        · rw [hz]
          simp
        · rw [hnext, Nat.mod_eq_of_lt (by omega)]
      · rw [hfin, hnext, Nat.mod_add_mod]
        congr 1
        omega
    · simp only [List.filter_cons, hreg, Bool.false_eq_true, if_false] at hw ⊢
      have hwf2 : st2.1.next_task_id < 2 ^ w := by
        rw [hnext]
        exact hwf
      have hw2 : st2.1.next_task_id +
          (cs.filter Registration.registers_task).length ≤ 2 ^ w := by
        rw [hnext]
        exact hw
      obtain ⟨appended, happ, hids, hfin⟩ := ih st2 st1 hrest hwf2 hw2
      refine ⟨appended, ?_, ?_, ?_⟩
      · rw [happ, hent]
      · rw [hids, hnext]
      · rw [hfin, hnext]


/-- C6, as a counterexample: with a counter of 64 bits that stands at its
largest value, two calls of `await` that both return hand out the ids
18446744073709551615 and 0, in this order of registration: the second is not
greater than the first. -/
theorem task_id_wraps_to_zero :
    ∃ st1,
      perform_all 64
          [Registration.await 0 scenario.sum scenario.priority scenario.trace_info
              scenario.A [scenario.B],
            Registration.await 0 scenario.sum scenario.priority scenario.trace_info
              scenario.A [scenario.B]]
          (scenario.scheduler 18446744073709551615,
            scenario.memory [Slot.pending, Slot.pending]) =
        Outcome.returned st1 ∧
      st1.1.entries.map (fun t => t.task_id.id) = [18446744073709551615, 0] ∧
      ¬ (st1.1.entries.map (fun t => t.task_id.id)).Pairwise (fun a b => a < b) :=
  ⟨_, rfl, rfl, by decide⟩

/-- C6, amended: start from a scheduler whose counter `next_task_id` fits its
width `w`, and perform any sequence of calls of `await`, `await_any` and
`deferred` that all return and during which the counter does not wrap.  The
Tasks these calls appended to `entries` carry, in registration order, the
consecutive values of the counter from its value at the start on, one per call
of `await` or `await_any`; hence their TaskIds are strictly increasing and
pairwise distinct.  The counter has advanced by one per call of `await` or
`await_any`, modulo two to the width. -/
theorem task_ids_increase_until_wrap {σ V : Type} (w : Nat)
    (calls : List (Registration σ V)) (st st1 : TaskScheduler σ V × Memory V)
    (h : perform_all w calls st = Outcome.returned st1)
    (hwf : st.1.next_task_id < 2 ^ w)
    (hw : st.1.next_task_id + (calls.filter Registration.registers_task).length ≤ 2 ^ w) :
    ∃ appended : List (Task σ V),
      st1.1.entries = st.1.entries ++ appended ∧
      appended.map (fun t => t.task_id.id) =
        List.range' st.1.next_task_id (calls.filter Registration.registers_task).length ∧
      (appended.map (fun t => t.task_id.id)).Pairwise (fun a b => a < b) ∧
      (appended.map (fun t => t.task_id)).Nodup ∧
      st1.1.next_task_id =
        (st.1.next_task_id + (calls.filter Registration.registers_task).length) % 2 ^ w := by
  obtain ⟨appended, happ, hids, hfin⟩ := perform_all_ids w calls st st1 h hwf hw
  have hpw : (appended.map (fun t => t.task_id.id)).Pairwise (fun a b => a < b) := by
    rw [hids]
    exact List.pairwise_lt_range' _ _ 1 (by decide)
  refine ⟨appended, happ, hids, hpw, ?_, hfin⟩
  have hnd : (appended.map (fun t => t.task_id.id)).Nodup :=
    List.Pairwise.imp (fun hab => Nat.ne_of_lt hab) hpw
  have hmm : appended.map (fun t => t.task_id.id) =
      (appended.map (fun t => t.task_id)).map TaskId.id := by
    rw [List.map_map]
    rfl
  rw [hmm] at hnd
  exact List.Nodup.of_map _ hnd

/-- Witness of C6: `await`, `deferred`, `await_any` on a scheduler whose
counter of 64 bits stands at 5; the two Tasks get the ids 5 and 6. -/
theorem task_ids_increase_until_wrap_witness :
    ∃ st1,
      perform_all 64
          [Registration.await 0 scenario.sum scenario.priority scenario.trace_info
              scenario.A [scenario.B],
            Registration.deferred 0 scenario.sum scenario.A [scenario.B],
            Registration.await_any 0 scenario.first_ready_doubled scenario.priority
              scenario.trace_info scenario.A [scenario.B]]
          (scenario.scheduler 5, scenario.memory [Slot.pending, Slot.pending]) =
        Outcome.returned st1 ∧
      st1.1.entries.map (fun t => t.task_id.id) = [5, 6] ∧
      st1.1.next_task_id = 7 ∧
      ∃ appended : List (Task (List Invocation) Int),
        st1.1.entries = (scenario.scheduler 5).entries ++ appended ∧
        appended.map (fun t => t.task_id.id) = List.range' 5 2 ∧
        (appended.map (fun t => t.task_id.id)).Pairwise (fun a b => a < b) ∧
        (appended.map (fun t => t.task_id)).Nodup ∧
        st1.1.next_task_id = (5 + 2) % 2 ^ 64 :=
  ⟨_, rfl, rfl, rfl,
    task_ids_increase_until_wrap 64
      [Registration.await 0 scenario.sum scenario.priority scenario.trace_info
          scenario.A [scenario.B],
        Registration.deferred 0 scenario.sum scenario.A [scenario.B],
        Registration.await_any 0 scenario.first_ready_doubled scenario.priority
          scenario.trace_info scenario.A [scenario.B]]
      (scenario.scheduler 5, scenario.memory [Slot.pending, Slot.pending]) _ rfl
      (by decide) (by decide)⟩


/-! ### Source location -/

/-- C14: the accessors of `SourceLocation` return what the object was built
from.  For every file, function, line and column the object made by `current`
reports exactly these four values, and a default-constructed object reports
line 0, column 0, an empty file name and an empty function name. -/
theorem source_location_accessors (file : String) (function : String) (line : Nat)
    (column : Nat) :
    ((SourceLocation.current file function line column).file_name = file ∧
      (SourceLocation.current file function line column).function_name = function ∧
      (SourceLocation.current file function line column).line = line ∧
      (SourceLocation.current file function line column).column = column) ∧
    (SourceLocation.SourceLocation.line = 0 ∧
      SourceLocation.SourceLocation.column = 0 ∧
      SourceLocation.SourceLocation.file_name = "" ∧
      SourceLocation.SourceLocation.function_name = "") :=
  ⟨⟨rfl, rfl, rfl, rfl⟩, ⟨rfl, rfl, rfl, rfl⟩⟩

/-! ### Option storage -/

/-- In both specialisations `assign` with a value leaves the storage holding
the value, flagged as not none. -/
theorem OptionStorage.assign_some {T : Type} (trivial : Bool)
    (s : stx.OptionStorage T trivial) (v : T) :
    s.assign (some v) = { some_ := some v, is_none_ := false } := by
  cases trivial
  · cases hs : s.is_none_ <;> simp [OptionStorage.assign, OptionStorage.finally_init, hs]
  · simp [OptionStorage.assign, OptionStorage.finally_init]

/-- In both specialisations `assign` with `None` leaves the flag set. -/
theorem OptionStorage.assign_none_flag {T : Type} (trivial : Bool)
    (s : stx.OptionStorage T trivial) :
    (s.assign none).is_none_ = true := by
  cases trivial
  · cases hs : s.is_none_ <;> simp [OptionStorage.assign, hs]
  · simp [OptionStorage.assign, OptionStorage.finally_init]

/-- In both specialisations `assign` with `None` changes nothing in a storage
whose flag is already set. -/
theorem OptionStorage.assign_none_of_none {T : Type} (trivial : Bool)
    (s : stx.OptionStorage T trivial) (hs : s.is_none_ = true) :
    s.assign none = s := by
  cases trivial
  · simp [OptionStorage.assign, hs]
    cases s
    simp_all
  · simp [OptionStorage.assign, OptionStorage.finally_init]
    cases s
    simp_all

/-- C18: in either specialisation and from any prior state, `assign(Some(v))`
leaves the storage holding `v` with `is_none_` false, and `assign(None)` leaves
it with `is_none_` true.  Hence after a sequence of `assign` calls the storage
reflects the last call only: it holds the value of the last call with
`is_none_` false, or has `is_none_` true when the last call was with `None`.
A second `assign(None)` changes nothing. -/
theorem assign_reflects_last_call {T : Type} (trivial : Bool)
    (s : stx.OptionStorage T trivial) :
    (∀ v : T, s.assign (some v) = { some_ := some v, is_none_ := false }) ∧
    (s.assign none).is_none_ = true ∧
    (∀ (calls : List (Option T)) (v : T),
      (calls ++ [some v]).foldl OptionStorage.assign s =
        { some_ := some v, is_none_ := false }) ∧
    (∀ calls : List (Option T),
      ((calls ++ [none]).foldl OptionStorage.assign s).is_none_ = true) ∧
    (s.assign none).assign none = s.assign none := by
  refine ⟨fun v => OptionStorage.assign_some trivial s v,
    OptionStorage.assign_none_flag trivial s, ?_, ?_, ?_⟩
  · intro calls v
    rw [List.foldl_append]
    exact OptionStorage.assign_some trivial _ v
  · intro calls
    rw [List.foldl_append]
    exact OptionStorage.assign_none_flag trivial _
  · exact OptionStorage.assign_none_of_none trivial _
      (OptionStorage.assign_none_flag trivial s)

/-- After one `assign` two storages of the two specialisations agree: the same
flag and, when not none, the same value. -/
theorem OptionStorage.assign_agree {T : Type} (a : stx.OptionStorage T false)
    (b : stx.OptionStorage T true) (x : Option T) :
    (a.assign x).is_none_ = (b.assign x).is_none_ ∧
      ((a.assign x).is_none_ = false → (a.assign x).some_ = (b.assign x).some_) := by
  cases x with
  | none =>
    rw [OptionStorage.assign_none_flag false a, OptionStorage.assign_none_flag true b]
    exact ⟨rfl, fun h => by cases h⟩
  | some v =>
    rw [OptionStorage.assign_some false a v, OptionStorage.assign_some true b v]
    exact ⟨rfl, fun _ => rfl⟩

/-- A sequence of `assign` calls keeps two storages of the two specialisations
in agreement. -/
theorem OptionStorage.foldl_assign_agree {T : Type} (calls : List (Option T)) :
    ∀ (a : stx.OptionStorage T false) (b : stx.OptionStorage T true),
      a.is_none_ = b.is_none_ → (a.is_none_ = false → a.some_ = b.some_) →
      (calls.foldl OptionStorage.assign a).is_none_ =
          (calls.foldl OptionStorage.assign b).is_none_ ∧
        ((calls.foldl OptionStorage.assign a).is_none_ = false →
          (calls.foldl OptionStorage.assign a).some_ =
            (calls.foldl OptionStorage.assign b).some_) := by
  induction calls with
  | nil =>
    intro a b hflag hval
    exact ⟨hflag, hval⟩
  | cons x xs ih =>
    intro a b _ _
    simp only [List.foldl_cons]
    obtain ⟨h1, h2⟩ := OptionStorage.assign_agree a b x
    exact ih _ _ h1 h2

/-- C19: the primary template and the trivial specialisation of
`OptionStorage` cannot be told apart through `is_none_` and the stored value.
Constructed from the same initial value, `None` or `Some(v)`, and driven by the
same sequence of `assign` calls, both end with the same `is_none_` flag and,
when this flag is false, with the same stored value. -/
theorem specialisations_agree {T : Type} (initial : Option T) (calls : List (Option T)) :
    (calls.foldl OptionStorage.assign
        (OptionStorage.OptionStorage false initial)).is_none_ =
      (calls.foldl OptionStorage.assign
        (OptionStorage.OptionStorage true initial)).is_none_ ∧
    ((calls.foldl OptionStorage.assign
        (OptionStorage.OptionStorage false initial)).is_none_ = false →
      (calls.foldl OptionStorage.assign
          (OptionStorage.OptionStorage false initial)).some_ =
        (calls.foldl OptionStorage.assign
          (OptionStorage.OptionStorage true initial)).some_) := by
  apply OptionStorage.foldl_assign_agree
  · cases initial <;> rfl
  · cases initial <;> intro _ <;> rfl


/-! ### What a registration does not do -/

/-- The task closure of `await` for a task that returns a value (lines 54 and
55): one call on the input futures, then one write of the slot with the
result. -/
theorem await_fn_of_value {σ V : Type}
    (call : Memory V → Invocation → σ → V × σ) (args_ : List Future)
    (promise_ : Promise) (later : Memory V) (u : σ)
    (hp : later.slots[promise_.slot]? = some Slot.pending) :
    await.fn (Callable.returns_value call) args_ promise_ (later, u) =
      Outcome.returned
        ({ later with
            slots := later.slots.set promise_.slot
              (Slot.completed (some (call later (Invocation.apply args_) u).1)) },
          (call later (Invocation.apply args_) u).2) := by
  simp only [await.fn, notify_completed_of_pending _ _ later hp]

/-- The task closure of `await` for a task without result (lines 57 and 58):
one call on the input futures, then one write of the slot without value. -/
theorem await_fn_of_void {σ V : Type}
    (call : Memory V → Invocation → σ → σ) (args_ : List Future)
    (promise_ : Promise) (later : Memory V) (u : σ)
    (hp : later.slots[promise_.slot]? = some Slot.pending) :
    await.fn (Callable.returns_void call) args_ promise_ (later, u) =
      Outcome.returned
        ({ later with slots := later.slots.set promise_.slot (Slot.completed none) },
          call later (Invocation.apply args_) u) := by
  simp only [await.fn, notify_completed_of_pending _ _ later hp]

/-- The task closure of `await`, run where the slot of its promise is pending,
returns and leaves the slot completed. -/
theorem await_fn_completes {σ V : Type} (task_ : Callable σ V) (args_ : List Future)
    (promise_ : Promise) (later : Memory V) (u : σ)
    (hp : later.slots[promise_.slot]? = some Slot.pending) :
    ∃ later1 u1, await.fn task_ args_ promise_ (later, u) = Outcome.returned (later1, u1) ∧
      promise_.get_future.is_done later1 = true := by
  cases task_ with
  | returns_value call =>
    exact ⟨_, _, await_fn_of_value call args_ promise_ later u hp,
      is_done_of_written promise_.get_future _ later hp⟩
  | returns_void call =>
    exact ⟨_, _, await_fn_of_void call args_ promise_ later u hp,
      is_done_of_written promise_.get_future _ later hp⟩

/-- The task closure of `await_any` is the task closure of `await`. -/
theorem await_any_fn_eq {σ V : Type} (task_ : Callable σ V) (args_ : List Future)
    (promise_ : Promise) :
    await_any.fn task_ args_ promise_ = await.fn task_ args_ promise_ := by
  funext st
  cases task_ <;> rfl

/-- The schedule closure of `deferred`, run where the slot of its promise is
pending, returns and leaves the slot completed. -/
theorem deferred_schedule_completes {σ V : Type}
    (schedule_task_ : Memory V → Invocation → σ → V × σ)
    (await_futures_ : List Future) (promise_ : Promise) (later : Memory V) (u : σ)
    (hp : later.slots[promise_.slot]? = some Slot.pending) :
    ∃ later1 u1,
      deferred.schedule schedule_task_ await_futures_ promise_ (later, u) =
        Outcome.returned (later1, u1) ∧
      promise_.get_future.is_done later1 = true :=
  ⟨_, _, deferred_schedule_of_value schedule_task_ await_futures_ promise_ later u hp,
    is_done_of_written promise_.get_future _ later hp⟩

/-- The slot a registration creates is pending right after the call. -/
theorem fresh_slot_pending {V : Type} (m : Memory V) (requests : Nat) :
    ({ slots := m.slots ++ [Slot.pending], grant := m.grant,
        requests := requests } : Memory V).slots[m.slots.length]? = some Slot.pending := by
  simp

/-- C11: a call of `await`, `await_any` or `deferred` that returned has only
created the slot of its promise and made its four requests: the memory after
the call is the memory before it with one more slot, which is pending.  So the
returned future is not done right after the call, whatever the state of the
input futures at the call.  The closure the call registered, once invoked,
returns with the returned future done; a completion of any other slot leaves
it not done. -/
theorem registration_leaves_future_pending {σ V : Type} (w : Nat) (now : time_point)
    (m : Memory V) (scheduler : TaskScheduler σ V) (task : Callable σ V)
    (priority : TaskPriority) (trace_info : TaskTraceInfo) (first_input : Future)
    (other_inputs : List Future)
    (future : Future) (scheduler1 : TaskScheduler σ V) (m1 : Memory V)
    (h : await w now m scheduler task priority trace_info first_input other_inputs =
        Outcome.returned (future, scheduler1, m1) ∨
      await_any w now m scheduler task priority trace_info first_input other_inputs =
        Outcome.returned (future, scheduler1, m1) ∨
      deferred now m scheduler task first_input other_inputs =
        Outcome.returned (future, scheduler1, m1)) :
    future.is_done m1 = false ∧
    future.slot = m.slots.length ∧
    m1 = { slots := m.slots ++ [Slot.pending], grant := m.grant,
           requests := m.requests + 4 } ∧
    (∃ closure : Closure σ V,
      ((∃ t, scheduler1.entries = scheduler.entries ++ [t] ∧ t.fn = closure) ∨
        (∃ d, scheduler1.deferred_entries = scheduler.deferred_entries ++ [d] ∧
          d.schedule = closure)) ∧
      ∀ u : σ, ∃ later u1,
        closure (m1, u) = Outcome.returned (later, u1) ∧ future.is_done later = true) ∧
    (∀ (later later2 : Memory V) (p : Promise) (value : Option V),
      future.is_done later = false → p.slot ≠ future.slot →
      p.notify_completed value later = some later2 → future.is_done later2 = false) := by
  have hother : ∀ (fut : Future) (later later2 : Memory V) (p : Promise) (value : Option V),
      fut.is_done later = false → p.slot ≠ fut.slot →
      p.notify_completed value later = some later2 → fut.is_done later2 = false := by
    intro fut later later2 p value hnd hne hn
    cases hd : fut.is_done later2
    · rfl
    · rcases (is_done_after_notify p value later later2 hn fut).mp hd with h1 | h1
      · rw [h1] at hnd
        cases hnd
      · exact absurd h1.symm hne
  have hfresh : (⟨m.slots.length⟩ : Future).is_done
      ({ slots := m.slots ++ [Slot.pending], grant := m.grant,
         requests := m.requests + 4 } : Memory V) = false := by
    simp [Future.is_done]
  rcases h with h | h | h
  · have hg := await_granted_of_returned w now m scheduler task priority trace_info
      first_input other_inputs _ h
    rw [await_of_granted w now m scheduler task priority trace_info first_input
      other_inputs hg] at h
    injection h with h
    injection h with h1 h2
    injection h2 with h2 h3
    subst h1 h2 h3
    refine ⟨hfresh, rfl, rfl, ⟨_, Or.inl ⟨_, rfl, rfl⟩, ?_⟩, hother _⟩
    intro u
    exact await_fn_completes task _ ⟨m.slots.length⟩ _ u (fresh_slot_pending m _)
  · have hg := await_any_granted_of_returned w now m scheduler task priority trace_info
      first_input other_inputs _ h
    rw [await_any_of_granted w now m scheduler task priority trace_info first_input
      other_inputs hg] at h
    injection h with h
    injection h with h1 h2
    injection h2 with h2 h3
    subst h1 h2 h3
    refine ⟨hfresh, rfl, rfl, ⟨_, Or.inl ⟨_, rfl, rfl⟩, ?_⟩, hother _⟩
    intro u
    dsimp only
    rw [await_any_fn_eq]
    exact await_fn_completes task _ ⟨m.slots.length⟩ _ u (fresh_slot_pending m _)
  · obtain ⟨call, hcall⟩ := deferred_value_of_returned now m scheduler task
      first_input other_inputs _ h
    subst hcall
    have hg := deferred_granted_of_returned now m scheduler (Callable.returns_value call)
      first_input other_inputs _ h
    rw [deferred_of_granted now m scheduler call first_input other_inputs hg] at h
    injection h with h
    injection h with h1 h2
    injection h2 with h2 h3
    subst h1 h2 h3
    refine ⟨hfresh, rfl, rfl, ⟨_, Or.inr ⟨_, rfl, rfl⟩, ?_⟩, hother _⟩
    intro u
    exact deferred_schedule_completes call _ ⟨m.slots.length⟩ _ u (fresh_slot_pending m _)


/-- Witness of C11: the three combinators called over A and B when both are
already done, A with 3 and B with 4.  Each call returns a future that is not
done, on the slot the call created. -/
theorem registration_leaves_future_pending_witness :
    (∃ future scheduler1 m1,
      await 64 0 (scenario.memory [Slot.completed (some 3), Slot.completed (some 4)])
          (scenario.scheduler 0) scenario.sum scenario.priority scenario.trace_info
          scenario.A [scenario.B] =
        Outcome.returned (future, scheduler1, m1) ∧
      scenario.A.is_done m1 = true ∧ scenario.B.is_done m1 = true ∧
      future.is_done m1 = false ∧ future.slot = 2) ∧
    (∃ future scheduler1 m1,
      await_any 64 0 (scenario.memory [Slot.completed (some 3), Slot.completed (some 4)])
          (scenario.scheduler 0) scenario.sum scenario.priority scenario.trace_info
          scenario.A [scenario.B] =
        Outcome.returned (future, scheduler1, m1) ∧
      scenario.A.is_done m1 = true ∧ scenario.B.is_done m1 = true ∧
      future.is_done m1 = false ∧ future.slot = 2) ∧
    (∃ future scheduler1 m1,
      deferred 0 (scenario.memory [Slot.completed (some 3), Slot.completed (some 4)])
          (scenario.scheduler 0) scenario.sum scenario.A [scenario.B] =
        Outcome.returned (future, scheduler1, m1) ∧
      scenario.A.is_done m1 = true ∧ scenario.B.is_done m1 = true ∧
      future.is_done m1 = false ∧ future.slot = 2) :=
  ⟨⟨_, _, _, rfl, rfl, rfl,
      (registration_leaves_future_pending 64 0
        (scenario.memory [Slot.completed (some 3), Slot.completed (some 4)])
        (scenario.scheduler 0) scenario.sum scenario.priority scenario.trace_info
        scenario.A [scenario.B] _ _ _ (Or.inl rfl)).1,
      (registration_leaves_future_pending 64 0
        (scenario.memory [Slot.completed (some 3), Slot.completed (some 4)])
        (scenario.scheduler 0) scenario.sum scenario.priority scenario.trace_info
        scenario.A [scenario.B] _ _ _ (Or.inl rfl)).2.1⟩,
    ⟨_, _, _, rfl, rfl, rfl,
      (registration_leaves_future_pending 64 0
        (scenario.memory [Slot.completed (some 3), Slot.completed (some 4)])
        (scenario.scheduler 0) scenario.sum scenario.priority scenario.trace_info
        scenario.A [scenario.B] _ _ _ (Or.inr (Or.inl rfl))).1,
      (registration_leaves_future_pending 64 0
        (scenario.memory [Slot.completed (some 3), Slot.completed (some 4)])
        (scenario.scheduler 0) scenario.sum scenario.priority scenario.trace_info
        scenario.A [scenario.B] _ _ _ (Or.inr (Or.inl rfl))).2.1⟩,
    ⟨_, _, _, rfl, rfl, rfl,
      (registration_leaves_future_pending 64 0
        (scenario.memory [Slot.completed (some 3), Slot.completed (some 4)])
        (scenario.scheduler 0) scenario.sum scenario.priority scenario.trace_info
        scenario.A [scenario.B] _ _ _ (Or.inr (Or.inr rfl))).1,
      (registration_leaves_future_pending 64 0
        (scenario.memory [Slot.completed (some 3), Slot.completed (some 4)])
        (scenario.scheduler 0) scenario.sum scenario.priority scenario.trace_info
        scenario.A [scenario.B] _ _ _ (Or.inr (Or.inr rfl))).2.1⟩⟩

/-! ### await_any against await -/

/-- C12: for the same width, clock reading, memory, scheduler, task,
priority, trace information and input futures, `await` returns exactly when
`await_any` returns, and then both return the same future and the same memory,
and schedulers with the same `next_task_id`, `deferred_entries` and allocator,
whose `entries` are the old ones followed by one Task.  The two Tasks have the
same closure, clock reading, promise, TaskId, priority and trace information;
the Task of `await` has the all-of predicate, the Task of `await_any` the
any-of predicate over the same shares, and this is their only difference. -/
theorem await_any_differs_in_readiness_only {σ V : Type} (w : Nat) (now : time_point)
    (m : Memory V) (scheduler : TaskScheduler σ V) (task : Callable σ V)
    (priority : TaskPriority) (trace_info : TaskTraceInfo) (first_input : Future)
    (other_inputs : List Future)
    (h : (∃ r, await w now m scheduler task priority trace_info first_input other_inputs =
        Outcome.returned r) ∨
      (∃ r, await_any w now m scheduler task priority trace_info first_input other_inputs =
        Outcome.returned r)) :
    ∃ (future : Future) (m1 : Memory V) (s1 s2 : TaskScheduler σ V) (t1 t2 : Task σ V),
      await w now m scheduler task priority trace_info first_input other_inputs =
        Outcome.returned (future, s1, m1) ∧
      await_any w now m scheduler task priority trace_info first_input other_inputs =
        Outcome.returned (future, s2, m1) ∧
      s2.next_task_id = s1.next_task_id ∧
      s2.deferred_entries = s1.deferred_entries ∧
      s2.allocator = s1.allocator ∧
      s1.entries = scheduler.entries ++ [t1] ∧
      s2.entries = scheduler.entries ++ [t2] ∧
      s2.entries.length = s1.entries.length ∧
      t2.task_id = t1.task_id ∧ t2.priority = t1.priority ∧
      t2.trace_info = t1.trace_info ∧ t2.timepoint = t1.timepoint ∧
      t2.task_promise = t1.task_promise ∧
      t2.fn = t1.fn ∧
      t1.readiness_fn = await.readiness_fn
        (FutureAny.of first_input.share ::
          other_inputs.map (fun f => FutureAny.of f.share)) ∧
      t2.readiness_fn = await_any.readiness_fn
        (FutureAny.of first_input.share ::
          other_inputs.map (fun f => FutureAny.of f.share)) ∧
      t2 = { t1 with readiness_fn := t2.readiness_fn } := by
  have hg : ∀ k, k < 4 → m.grant (m.requests + k) = true := by
    rcases h with ⟨r, hr⟩ | ⟨r, hr⟩
    · exact await_granted_of_returned w now m scheduler task priority trace_info
        first_input other_inputs r hr
    · exact await_any_granted_of_returned w now m scheduler task priority trace_info
        first_input other_inputs r hr
  refine ⟨_, _, _, _, _, _,
    await_of_granted w now m scheduler task priority trace_info first_input other_inputs hg,
    await_any_of_granted w now m scheduler task priority trace_info first_input
      other_inputs hg,
    rfl, rfl, rfl, rfl, rfl, ?_, rfl, rfl, rfl, rfl, rfl, ?_, rfl, rfl, ?_⟩
  · simp
  · exact await_any_fn_eq task _ _
  · simp only [await_any_fn_eq]

/-- Witness of C12 on the scenario of section 8, over A and B with the
continuation `sum`. -/
theorem await_any_differs_in_readiness_only_witness :
    ∃ (future : Future) (m1 : Memory Int) (s1 s2 : TaskScheduler (List Invocation) Int)
      (t1 t2 : Task (List Invocation) Int),
      await 64 0 (scenario.memory [Slot.pending, Slot.pending]) (scenario.scheduler 0)
          scenario.sum scenario.priority scenario.trace_info scenario.A [scenario.B] =
        Outcome.returned (future, s1, m1) ∧
      await_any 64 0 (scenario.memory [Slot.pending, Slot.pending]) (scenario.scheduler 0)
          scenario.sum scenario.priority scenario.trace_info scenario.A [scenario.B] =
        Outcome.returned (future, s2, m1) ∧
      s2.next_task_id = s1.next_task_id ∧
      s2.deferred_entries = s1.deferred_entries ∧
      s2.allocator = s1.allocator ∧
      s1.entries = (scenario.scheduler 0).entries ++ [t1] ∧
      s2.entries = (scenario.scheduler 0).entries ++ [t2] ∧
      s2.entries.length = s1.entries.length ∧
      t2.task_id = t1.task_id ∧ t2.priority = t1.priority ∧
      t2.trace_info = t1.trace_info ∧ t2.timepoint = t1.timepoint ∧
      t2.task_promise = t1.task_promise ∧
      t2.fn = t1.fn ∧
      t1.readiness_fn = await.readiness_fn
        (FutureAny.of scenario.A.share ::
          [scenario.B].map (fun f => FutureAny.of f.share)) ∧
      t2.readiness_fn = await_any.readiness_fn
        (FutureAny.of scenario.A.share ::
          [scenario.B].map (fun f => FutureAny.of f.share)) ∧
      t2 = { t1 with readiness_fn := t2.readiness_fn } :=
  await_any_differs_in_readiness_only 64 0 (scenario.memory [Slot.pending, Slot.pending])
    (scenario.scheduler 0) scenario.sum scenario.priority scenario.trace_info scenario.A
    [scenario.B] (Or.inl ⟨_, rfl⟩)

/-! ### Registries at an allocation failure -/

/-- C13: when a call of `await`, `await_any` or `deferred` fails, it fails on
the `unwrap()` of an allocation error, and at that point no descriptor has
been registered: `entries` and `deferred_entries` are what they were before
the call. -/
theorem failed_call_registers_nothing {σ V : Type} (w : Nat) (now : time_point)
    (m : Memory V) (scheduler : TaskScheduler σ V) (task : Callable σ V)
    (priority : TaskPriority) (trace_info : TaskTraceInfo) (first_input : Future)
    (other_inputs : List Future)
    (fault : Fault) (at_fault : TaskScheduler σ V × Memory V)
    (h : await w now m scheduler task priority trace_info first_input other_inputs =
        Outcome.panicked fault at_fault ∨
      await_any w now m scheduler task priority trace_info first_input other_inputs =
        Outcome.panicked fault at_fault ∨
      deferred now m scheduler task first_input other_inputs =
        Outcome.panicked fault at_fault) :
    fault = Fault.unwrap_of_err AllocError.NoMemory ∧
    (∃ k, k < 4 ∧ m.grant (m.requests + k) = false) ∧
    at_fault.1.entries = scheduler.entries ∧
    at_fault.1.deferred_entries = scheduler.deferred_entries := by
  have hdich : (∀ k, k < 4 → m.grant (m.requests + k) = true) ∨
      (∃ k, k < 4 ∧ m.grant (m.requests + k) = false) := by
    by_cases hall : ∀ k, k < 4 → m.grant (m.requests + k) = true
    · exact Or.inl hall
    · right
      push_neg at hall
      obtain ⟨k, hk, hf⟩ := hall
      exact ⟨k, hk, by simpa using hf⟩
  rcases hdich with hall | href
  · rcases h with h | h | h
    · rw [await_of_granted w now m scheduler task priority trace_info first_input
        other_inputs hall] at h
      cases h
    · rw [await_any_of_granted w now m scheduler task priority trace_info first_input
        other_inputs hall] at h
      cases h
    · obtain ⟨call, hcall⟩ := deferred_value_of_panicked now m scheduler task
        first_input other_inputs _ _ h
      subst hcall
      rw [deferred_of_granted now m scheduler call first_input other_inputs hall] at h
      cases h
  · rcases h with h | h | h
    · obtain ⟨m1, hp⟩ := await_of_refused w now m scheduler task priority trace_info
        first_input other_inputs href
      rw [hp] at h
      injection h with h1 h2
      subst h1 h2
      exact ⟨rfl, href, rfl, rfl⟩
    · obtain ⟨m1, hp⟩ := await_any_of_refused w now m scheduler task priority trace_info
        first_input other_inputs href
      rw [hp] at h
      injection h with h1 h2
      subst h1 h2
      exact ⟨rfl, href, rfl, rfl⟩
    · obtain ⟨call, hcall⟩ := deferred_value_of_panicked now m scheduler task
        first_input other_inputs _ _ h
      subst hcall
      obtain ⟨m1, hp⟩ := deferred_of_refused now m scheduler call first_input
        other_inputs href
      rw [hp] at h
      injection h with h1 h2
      subst h1 h2
      exact ⟨rfl, href, rfl, rfl⟩


/-- Witness of C13: `await` when the growth of the registry is refused after
three granted requests, `await_any` and `deferred` when the first request is
refused. -/
theorem failed_call_registers_nothing_witness :
    (∃ fault at_fault,
      await 64 0
          { slots := [Slot.pending, Slot.pending], grant := fun k => decide (k < 3),
            requests := 0 }
          (scenario.scheduler 0) scenario.sum scenario.priority scenario.trace_info
          scenario.A [scenario.B] =
        Outcome.panicked fault at_fault ∧
      fault = Fault.unwrap_of_err AllocError.NoMemory ∧
      at_fault.1.entries = (scenario.scheduler 0).entries ∧
      at_fault.1.deferred_entries = (scenario.scheduler 0).deferred_entries) ∧
    (∃ fault at_fault,
      await_any 64 0 (scenario.exhausted [Slot.pending, Slot.pending])
          (scenario.scheduler 0) scenario.sum scenario.priority scenario.trace_info
          scenario.A [scenario.B] =
        Outcome.panicked fault at_fault ∧
      fault = Fault.unwrap_of_err AllocError.NoMemory ∧
      at_fault.1.entries = (scenario.scheduler 0).entries ∧
      at_fault.1.deferred_entries = (scenario.scheduler 0).deferred_entries) ∧
    (∃ fault at_fault,
      deferred 0 (scenario.exhausted [Slot.pending, Slot.pending])
          (scenario.scheduler 0) scenario.sum scenario.A [scenario.B] =
        Outcome.panicked fault at_fault ∧
      fault = Fault.unwrap_of_err AllocError.NoMemory ∧
      at_fault.1.entries = (scenario.scheduler 0).entries ∧
      at_fault.1.deferred_entries = (scenario.scheduler 0).deferred_entries) := by
  refine ⟨⟨_, _, rfl, ?_⟩, ⟨_, _, rfl, ?_⟩, ⟨_, _, rfl, ?_⟩⟩
  · have t := failed_call_registers_nothing 64 0
      { slots := [Slot.pending, Slot.pending], grant := fun k => decide (k < 3),
        requests := 0 }
      (scenario.scheduler 0) scenario.sum scenario.priority scenario.trace_info
      scenario.A [scenario.B] _ _ (Or.inl rfl)
    exact ⟨t.1, t.2.2.1, t.2.2.2⟩
  · have t := failed_call_registers_nothing 64 0
      (scenario.exhausted [Slot.pending, Slot.pending])
      (scenario.scheduler 0) scenario.sum scenario.priority scenario.trace_info
      scenario.A [scenario.B] _ _ (Or.inr (Or.inl rfl))
    exact ⟨t.1, t.2.2.1, t.2.2.2⟩
  · have t := failed_call_registers_nothing 64 0
      (scenario.exhausted [Slot.pending, Slot.pending])
      (scenario.scheduler 0) scenario.sum scenario.priority scenario.trace_info
      scenario.A [scenario.B] _ _ (Or.inr (Or.inr rfl))
    exact ⟨t.1, t.2.2.1, t.2.2.2⟩

/-! ### Relations between readiness predicates -/

/-- Two readiness values that are `Yes` together are equal. -/
theorem TaskReady.eq_of_yes_iff (a b : TaskReady)
    (h : a = TaskReady.Yes ↔ b = TaskReady.Yes) : a = b := by
  cases a <;> cases b <;> simp_all

/-- The readiness predicate a call registered is the all-of closure of
`await`, the any-of closure of `await_any` or the all-of closure of
`deferred`, over the erased shares of the input futures of the call. -/
theorem registered_readiness_cases {σ V : Type} (w : Nat) (now : time_point)
    (m : Memory V) (scheduler : TaskScheduler σ V) (task : Callable σ V)
    (priority : TaskPriority) (trace_info : TaskTraceInfo) (first_input : Future)
    (other_inputs : List Future)
    (future : Future) (scheduler1 : TaskScheduler σ V) (m1 : Memory V) (r : Readiness V)
    (h : (await w now m scheduler task priority trace_info first_input other_inputs =
          Outcome.returned (future, scheduler1, m1) ∧
        ∃ t, scheduler1.entries = scheduler.entries ++ [t] ∧ t.readiness_fn = r) ∨
      (await_any w now m scheduler task priority trace_info first_input other_inputs =
          Outcome.returned (future, scheduler1, m1) ∧
        ∃ t, scheduler1.entries = scheduler.entries ++ [t] ∧ t.readiness_fn = r) ∨
      (deferred now m scheduler task first_input other_inputs =
          Outcome.returned (future, scheduler1, m1) ∧
        ∃ d, scheduler1.deferred_entries = scheduler.deferred_entries ++ [d] ∧
          d.readiness = r)) :
    r = await.readiness_fn
        (FutureAny.of first_input.share ::
          other_inputs.map (fun f => FutureAny.of f.share)) ∨
    r = await_any.readiness_fn
        (FutureAny.of first_input.share ::
          other_inputs.map (fun f => FutureAny.of f.share)) ∨
    r = deferred.readiness
        (FutureAny.of first_input.share ::
          other_inputs.map (fun f => FutureAny.of f.share)) := by
  rcases h with ⟨h, t, ht, hr⟩ | ⟨h, t, ht, hr⟩ | ⟨h, d, hd, hr⟩
  · have hg := await_granted_of_returned w now m scheduler task priority trace_info
      first_input other_inputs _ h
    rw [await_of_granted w now m scheduler task priority trace_info first_input
      other_inputs hg] at h
    injection h with h
    injection h with h1 h2
    injection h2 with h2 h3
    subst h1 h2 h3
    have ht2 := List.append_cancel_left ht
    injection ht2 with ht3 _
    left
    rw [← hr, ← ht3]
  · have hg := await_any_granted_of_returned w now m scheduler task priority trace_info
      first_input other_inputs _ h
    rw [await_any_of_granted w now m scheduler task priority trace_info first_input
      other_inputs hg] at h
    injection h with h
    injection h with h1 h2
    injection h2 with h2 h3
    subst h1 h2 h3
    have ht2 := List.append_cancel_left ht
    injection ht2 with ht3 _
    right
    left
    rw [← hr, ← ht3]
  · obtain ⟨call, hcall⟩ := deferred_value_of_returned now m scheduler task
      first_input other_inputs _ h
    subst hcall
    have hg := deferred_granted_of_returned now m scheduler (Callable.returns_value call)
      first_input other_inputs _ h
    rw [deferred_of_granted now m scheduler call first_input other_inputs hg] at h
    injection h with h
    injection h with h1 h2
    injection h2 with h2 h3
    subst h1 h2 h3
    have hd2 := List.append_cancel_left hd
    injection hd2 with hd3 _
    right
    right
    rw [← hr, ← hd3]

/-- A registered readiness predicate is, in every memory and for every elapsed
time, `Yes` exactly when all inputs are done, or it is, in every memory and for
every elapsed time, `Yes` exactly when some input is done. -/
theorem registered_readiness_mode {σ V : Type} (w : Nat) (now : time_point)
    (m : Memory V) (scheduler : TaskScheduler σ V) (task : Callable σ V)
    (priority : TaskPriority) (trace_info : TaskTraceInfo) (first_input : Future)
    (other_inputs : List Future)
    (future : Future) (scheduler1 : TaskScheduler σ V) (m1 : Memory V) (r : Readiness V)
    (h : (await w now m scheduler task priority trace_info first_input other_inputs =
          Outcome.returned (future, scheduler1, m1) ∧
        ∃ t, scheduler1.entries = scheduler.entries ++ [t] ∧ t.readiness_fn = r) ∨
      (await_any w now m scheduler task priority trace_info first_input other_inputs =
          Outcome.returned (future, scheduler1, m1) ∧
        ∃ t, scheduler1.entries = scheduler.entries ++ [t] ∧ t.readiness_fn = r) ∨
      (deferred now m scheduler task first_input other_inputs =
          Outcome.returned (future, scheduler1, m1) ∧
        ∃ d, scheduler1.deferred_entries = scheduler.deferred_entries ++ [d] ∧
          d.readiness = r)) :
    (∀ (later : Memory V) (elapsed : nanoseconds),
      r later elapsed = TaskReady.Yes ↔
        ∀ f ∈ first_input :: other_inputs, f.is_done later = true) ∨
    (∀ (later : Memory V) (elapsed : nanoseconds),
      r later elapsed = TaskReady.Yes ↔
        ∃ f ∈ first_input :: other_inputs, f.is_done later = true) := by
  rcases registered_readiness_cases w now m scheduler task priority trace_info first_input
    other_inputs future scheduler1 m1 r h with hr | hr | hr
  · left
    intro later elapsed
    rw [hr]
    exact await_readiness_yes_iff first_input other_inputs later elapsed
  · right
    intro later elapsed
    rw [hr]
    exact await_any_readiness_yes_iff first_input other_inputs later elapsed
  · left
    intro later elapsed
    rw [hr]
    exact deferred_readiness_yes_iff first_input other_inputs later elapsed


/-- C15: take the Task of a call of `await` and the Task of a call of
`await_any` over the same input futures, both calls having returned.  In every
memory, whenever the all-of predicate of the first answers `Yes`, the any-of
predicate of the second answers `Yes`; the list of inputs starts with
`first_input`, so it is never empty.  When `first_input` is the only input,
the two predicates answer the same in every memory. -/
theorem all_of_implies_any_of {σ V : Type} (w : Nat) (now : time_point) (m : Memory V)
    (scheduler : TaskScheduler σ V) (task : Callable σ V) (priority : TaskPriority)
    (trace_info : TaskTraceInfo)
    (w2 : Nat) (now2 : time_point) (m2 : Memory V)
    (scheduler2 : TaskScheduler σ V) (task2 : Callable σ V) (priority2 : TaskPriority)
    (trace_info2 : TaskTraceInfo)
    (first_input : Future) (other_inputs : List Future)
    (future : Future) (s1 : TaskScheduler σ V) (m1 : Memory V)
    (future2 : Future) (s2 : TaskScheduler σ V) (m3 : Memory V)
    (h1 : await w now m scheduler task priority trace_info first_input other_inputs =
      Outcome.returned (future, s1, m1))
    (h2 : await_any w2 now2 m2 scheduler2 task2 priority2 trace_info2 first_input
        other_inputs =
      Outcome.returned (future2, s2, m3)) :
    ∃ t1 t2, s1.entries = scheduler.entries ++ [t1] ∧
      s2.entries = scheduler2.entries ++ [t2] ∧
      (∀ (later : Memory V) (e1 e2 : nanoseconds),
        t1.readiness_fn later e1 = TaskReady.Yes →
        t2.readiness_fn later e2 = TaskReady.Yes) ∧
      (other_inputs = [] →
        ∀ (later : Memory V) (e1 e2 : nanoseconds),
          t1.readiness_fn later e1 = t2.readiness_fn later e2) := by
  have hg1 := await_granted_of_returned w now m scheduler task priority trace_info
    first_input other_inputs _ h1
  rw [await_of_granted w now m scheduler task priority trace_info first_input
    other_inputs hg1] at h1
  injection h1 with h1
  injection h1 with h11 h12
  injection h12 with h12 h13
  subst h11 h12 h13
  have hg2 := await_any_granted_of_returned w2 now2 m2 scheduler2 task2 priority2
    trace_info2 first_input other_inputs _ h2
  rw [await_any_of_granted w2 now2 m2 scheduler2 task2 priority2 trace_info2 first_input
    other_inputs hg2] at h2
  injection h2 with h2
  injection h2 with h21 h22
  injection h22 with h22 h23
  subst h21 h22 h23
  refine ⟨_, _, rfl, rfl, ?_, ?_⟩
  · intro later e1 e2 hy
    dsimp only at hy ⊢
    rw [await_readiness_yes_iff] at hy
    rw [await_any_readiness_yes_iff]
    exact ⟨first_input, List.mem_cons_self _ _, hy first_input (List.mem_cons_self _ _)⟩
  · intro hone later e1 e2
    subst hone
    dsimp only
    apply TaskReady.eq_of_yes_iff
    rw [await_readiness_yes_iff, await_any_readiness_yes_iff]
    simp

/-- Witness of C15: `await` and `await_any` over the single input A. -/
theorem all_of_implies_any_of_witness :
    ∃ (future : Future) (s1 : TaskScheduler (List Invocation) Int) (m1 : Memory Int)
      (future2 : Future) (s2 : TaskScheduler (List Invocation) Int) (m3 : Memory Int),
      await 64 0 (scenario.memory [Slot.pending]) (scenario.scheduler 0) scenario.sum
          scenario.priority scenario.trace_info scenario.A [] =
        Outcome.returned (future, s1, m1) ∧
      await_any 64 5 (scenario.memory [Slot.pending]) (scenario.scheduler 3)
          scenario.first_ready_doubled scenario.priority scenario.trace_info scenario.A [] =
        Outcome.returned (future2, s2, m3) ∧
      ∃ t1 t2, s1.entries = (scenario.scheduler 0).entries ++ [t1] ∧
        s2.entries = (scenario.scheduler 3).entries ++ [t2] ∧
        (∀ (later : Memory Int) (e1 e2 : nanoseconds),
          t1.readiness_fn later e1 = TaskReady.Yes →
          t2.readiness_fn later e2 = TaskReady.Yes) ∧
        (([] : List Future) = [] →
          ∀ (later : Memory Int) (e1 e2 : nanoseconds),
            t1.readiness_fn later e1 = t2.readiness_fn later e2) :=
  ⟨_, _, _, _, _, _, rfl, rfl,
    all_of_implies_any_of 64 0 (scenario.memory [Slot.pending]) (scenario.scheduler 0)
      scenario.sum scenario.priority scenario.trace_info
      64 5 (scenario.memory [Slot.pending]) (scenario.scheduler 3)
      scenario.first_ready_doubled scenario.priority scenario.trace_info
      scenario.A [] _ _ _ _ _ _ rfl rfl⟩

/-- C16: let `r` be the readiness predicate of the descriptor appended by a
call of `await`, `await_any` or `deferred` that returned.  In a given memory
`r` answers the same for every two elapsed times; more, its answer is the same
in two memories in which every input future has the same done-flag: the
done-flags of the inputs decide alone. -/
theorem readiness_ignores_elapsed {σ V : Type} (w : Nat) (now : time_point)
    (m : Memory V) (scheduler : TaskScheduler σ V) (task : Callable σ V)
    (priority : TaskPriority) (trace_info : TaskTraceInfo) (first_input : Future)
    (other_inputs : List Future)
    (future : Future) (scheduler1 : TaskScheduler σ V) (m1 : Memory V) (r : Readiness V)
    (h : (await w now m scheduler task priority trace_info first_input other_inputs =
          Outcome.returned (future, scheduler1, m1) ∧
        ∃ t, scheduler1.entries = scheduler.entries ++ [t] ∧ t.readiness_fn = r) ∨
      (await_any w now m scheduler task priority trace_info first_input other_inputs =
          Outcome.returned (future, scheduler1, m1) ∧
        ∃ t, scheduler1.entries = scheduler.entries ++ [t] ∧ t.readiness_fn = r) ∨
      (deferred now m scheduler task first_input other_inputs =
          Outcome.returned (future, scheduler1, m1) ∧
        ∃ d, scheduler1.deferred_entries = scheduler.deferred_entries ++ [d] ∧
          d.readiness = r)) :
    (∀ (later : Memory V) (e1 e2 : nanoseconds), r later e1 = r later e2) ∧
    (∀ (later later2 : Memory V) (e1 e2 : nanoseconds),
      (∀ f ∈ first_input :: other_inputs, f.is_done later = f.is_done later2) →
      r later e1 = r later2 e2) := by
  have hmode := registered_readiness_mode w now m scheduler task priority trace_info
    first_input other_inputs future scheduler1 m1 r h
  have hsec : ∀ (later later2 : Memory V) (e1 e2 : nanoseconds),
      (∀ f ∈ first_input :: other_inputs, f.is_done later = f.is_done later2) →
      r later e1 = r later2 e2 := by
    intro later later2 e1 e2 hsame
    apply TaskReady.eq_of_yes_iff
    rcases hmode with hall | hany
    · rw [hall, hall]
      constructor
      · intro hd f hf
        rw [← hsame f hf]
        exact hd f hf
      · intro hd f hf
        rw [hsame f hf]
        exact hd f hf
    · rw [hany, hany]
      constructor
      · rintro ⟨f, hf, hd⟩
        exact ⟨f, hf, by rw [← hsame f hf]; exact hd⟩
      · rintro ⟨f, hf, hd⟩
        exact ⟨f, hf, by rw [hsame f hf]; exact hd⟩
  exact ⟨fun later e1 e2 => hsec later later e1 e2 (fun _ _ => rfl), hsec⟩

/-- Witness of C16: the predicates registered by `await`, `await_any` and
`deferred` over A and B. -/
theorem readiness_ignores_elapsed_witness :
    (∃ (r : Readiness Int) (future : Future)
        (scheduler1 : TaskScheduler (List Invocation) Int) (m1 : Memory Int),
      (await 64 0 (scenario.memory [Slot.pending, Slot.pending]) (scenario.scheduler 0)
            scenario.sum scenario.priority scenario.trace_info scenario.A [scenario.B] =
          Outcome.returned (future, scheduler1, m1) ∧
        ∃ t, scheduler1.entries = (scenario.scheduler 0).entries ++ [t] ∧
          t.readiness_fn = r) ∧
      (∀ (later : Memory Int) (e1 e2 : nanoseconds), r later e1 = r later e2) ∧
      (∀ (later later2 : Memory Int) (e1 e2 : nanoseconds),
        (∀ f ∈ [scenario.A, scenario.B], f.is_done later = f.is_done later2) →
        r later e1 = r later2 e2)) ∧
    (∃ (r : Readiness Int) (future : Future)
        (scheduler1 : TaskScheduler (List Invocation) Int) (m1 : Memory Int),
      (await_any 64 0 (scenario.memory [Slot.pending, Slot.pending]) (scenario.scheduler 0)
            scenario.sum scenario.priority scenario.trace_info scenario.A [scenario.B] =
          Outcome.returned (future, scheduler1, m1) ∧
        ∃ t, scheduler1.entries = (scenario.scheduler 0).entries ++ [t] ∧
          t.readiness_fn = r) ∧
      (∀ (later : Memory Int) (e1 e2 : nanoseconds), r later e1 = r later e2) ∧
      (∀ (later later2 : Memory Int) (e1 e2 : nanoseconds),
        (∀ f ∈ [scenario.A, scenario.B], f.is_done later = f.is_done later2) →
        r later e1 = r later2 e2)) ∧
    (∃ (r : Readiness Int) (future : Future)
        (scheduler1 : TaskScheduler (List Invocation) Int) (m1 : Memory Int),
      (deferred 0 (scenario.memory [Slot.pending, Slot.pending]) (scenario.scheduler 0)
            scenario.sum scenario.A [scenario.B] =
          Outcome.returned (future, scheduler1, m1) ∧
        ∃ d, scheduler1.deferred_entries =
            (scenario.scheduler 0).deferred_entries ++ [d] ∧ d.readiness = r) ∧
      (∀ (later : Memory Int) (e1 e2 : nanoseconds), r later e1 = r later e2) ∧
      (∀ (later later2 : Memory Int) (e1 e2 : nanoseconds),
        (∀ f ∈ [scenario.A, scenario.B], f.is_done later = f.is_done later2) →
        r later e1 = r later2 e2)) :=
  ⟨⟨_, _, _, _, ⟨rfl, _, rfl, rfl⟩,
      readiness_ignores_elapsed 64 0 (scenario.memory [Slot.pending, Slot.pending])
        (scenario.scheduler 0) scenario.sum scenario.priority scenario.trace_info
        scenario.A [scenario.B] _ _ _ _ (Or.inl ⟨rfl, _, rfl, rfl⟩)⟩,
    ⟨_, _, _, _, ⟨rfl, _, rfl, rfl⟩,
      readiness_ignores_elapsed 64 0 (scenario.memory [Slot.pending, Slot.pending])
        (scenario.scheduler 0) scenario.sum scenario.priority scenario.trace_info
        scenario.A [scenario.B] _ _ _ _ (Or.inr (Or.inl ⟨rfl, _, rfl, rfl⟩))⟩,
    ⟨_, _, _, _, ⟨rfl, _, rfl, rfl⟩,
      readiness_ignores_elapsed 64 0 (scenario.memory [Slot.pending, Slot.pending])
        (scenario.scheduler 0) scenario.sum scenario.priority scenario.trace_info
        scenario.A [scenario.B] _ _ _ _ (Or.inr (Or.inr ⟨rfl, _, rfl, rfl⟩))⟩⟩

/-- C17: let `r` be the readiness predicate of the descriptor appended by a
call of `await`, `await_any` or `deferred` that returned.  If `r` answers `Yes`
in a memory, it answers `Yes` in every memory in which the input futures that
were done are still done, in particular in the memory reached by a completion
of any promise: a descriptor that has become ready does not become waiting
again. -/
theorem readiness_is_monotone {σ V : Type} (w : Nat) (now : time_point)
    (m : Memory V) (scheduler : TaskScheduler σ V) (task : Callable σ V)
    (priority : TaskPriority) (trace_info : TaskTraceInfo) (first_input : Future)
    (other_inputs : List Future)
    (future : Future) (scheduler1 : TaskScheduler σ V) (m1 : Memory V) (r : Readiness V)
    (h : (await w now m scheduler task priority trace_info first_input other_inputs =
          Outcome.returned (future, scheduler1, m1) ∧
        ∃ t, scheduler1.entries = scheduler.entries ++ [t] ∧ t.readiness_fn = r) ∨
      (await_any w now m scheduler task priority trace_info first_input other_inputs =
          Outcome.returned (future, scheduler1, m1) ∧
        ∃ t, scheduler1.entries = scheduler.entries ++ [t] ∧ t.readiness_fn = r) ∨
      (deferred now m scheduler task first_input other_inputs =
          Outcome.returned (future, scheduler1, m1) ∧
        ∃ d, scheduler1.deferred_entries = scheduler.deferred_entries ++ [d] ∧
          d.readiness = r)) :
    (∀ (later later2 : Memory V) (e1 e2 : nanoseconds),
      (∀ f ∈ first_input :: other_inputs, f.is_done later = true → f.is_done later2 = true) →
      r later e1 = TaskReady.Yes → r later2 e2 = TaskReady.Yes) ∧
    (∀ (later later2 : Memory V) (p : Promise) (value : Option V) (e1 e2 : nanoseconds),
      p.notify_completed value later = some later2 →
      r later e1 = TaskReady.Yes → r later2 e2 = TaskReady.Yes) := by
  have hmode := registered_readiness_mode w now m scheduler task priority trace_info
    first_input other_inputs future scheduler1 m1 r h
  have hsec : ∀ (later later2 : Memory V) (e1 e2 : nanoseconds),
      (∀ f ∈ first_input :: other_inputs,
        f.is_done later = true → f.is_done later2 = true) →
      r later e1 = TaskReady.Yes → r later2 e2 = TaskReady.Yes := by
    intro later later2 e1 e2 hkeep hy
    rcases hmode with hall | hany
    · rw [hall] at hy ⊢
      intro f hf
      exact hkeep f hf (hy f hf)
    · rw [hany] at hy ⊢
      obtain ⟨f, hf, hd⟩ := hy
      exact ⟨f, hf, hkeep f hf hd⟩
  refine ⟨hsec, ?_⟩
  intro later later2 p value e1 e2 hn hy
  apply hsec later later2 e1 e2 _ hy
  intro f _ hd
  exact (is_done_after_notify p value later later2 hn f).mpr (Or.inl hd)

/-- Witness of C17: the predicates registered by `await`, `await_any` and
`deferred` over A and B. -/
theorem readiness_is_monotone_witness :
    (∃ (r : Readiness Int) (future : Future)
        (scheduler1 : TaskScheduler (List Invocation) Int) (m1 : Memory Int),
      (await 64 0 (scenario.memory [Slot.pending, Slot.pending]) (scenario.scheduler 0)
            scenario.sum scenario.priority scenario.trace_info scenario.A [scenario.B] =
          Outcome.returned (future, scheduler1, m1) ∧
        ∃ t, scheduler1.entries = (scenario.scheduler 0).entries ++ [t] ∧
          t.readiness_fn = r) ∧
      (∀ (later later2 : Memory Int) (e1 e2 : nanoseconds),
        (∀ f ∈ [scenario.A, scenario.B], f.is_done later = true → f.is_done later2 = true) →
        r later e1 = TaskReady.Yes → r later2 e2 = TaskReady.Yes) ∧
      (∀ (later later2 : Memory Int) (p : Promise) (value : Option Int)
          (e1 e2 : nanoseconds),
        p.notify_completed value later = some later2 →
        r later e1 = TaskReady.Yes → r later2 e2 = TaskReady.Yes)) ∧
    (∃ (r : Readiness Int) (future : Future)
        (scheduler1 : TaskScheduler (List Invocation) Int) (m1 : Memory Int),
      (await_any 64 0 (scenario.memory [Slot.pending, Slot.pending]) (scenario.scheduler 0)
            scenario.sum scenario.priority scenario.trace_info scenario.A [scenario.B] =
          Outcome.returned (future, scheduler1, m1) ∧
        ∃ t, scheduler1.entries = (scenario.scheduler 0).entries ++ [t] ∧
          t.readiness_fn = r) ∧
      (∀ (later later2 : Memory Int) (e1 e2 : nanoseconds),
        (∀ f ∈ [scenario.A, scenario.B], f.is_done later = true → f.is_done later2 = true) →
        r later e1 = TaskReady.Yes → r later2 e2 = TaskReady.Yes) ∧
      (∀ (later later2 : Memory Int) (p : Promise) (value : Option Int)
          (e1 e2 : nanoseconds),
        p.notify_completed value later = some later2 →
        r later e1 = TaskReady.Yes → r later2 e2 = TaskReady.Yes)) ∧
    (∃ (r : Readiness Int) (future : Future)
        (scheduler1 : TaskScheduler (List Invocation) Int) (m1 : Memory Int),
      (deferred 0 (scenario.memory [Slot.pending, Slot.pending]) (scenario.scheduler 0)
            scenario.sum scenario.A [scenario.B] =
          Outcome.returned (future, scheduler1, m1) ∧
        ∃ d, scheduler1.deferred_entries =
            (scenario.scheduler 0).deferred_entries ++ [d] ∧ d.readiness = r) ∧
      (∀ (later later2 : Memory Int) (e1 e2 : nanoseconds),
        (∀ f ∈ [scenario.A, scenario.B], f.is_done later = true → f.is_done later2 = true) →
        r later e1 = TaskReady.Yes → r later2 e2 = TaskReady.Yes) ∧
      (∀ (later later2 : Memory Int) (p : Promise) (value : Option Int)
          (e1 e2 : nanoseconds),
        p.notify_completed value later = some later2 →
        r later e1 = TaskReady.Yes → r later2 e2 = TaskReady.Yes)) :=
  ⟨⟨_, _, _, _, ⟨rfl, _, rfl, rfl⟩,
      readiness_is_monotone 64 0 (scenario.memory [Slot.pending, Slot.pending])
        (scenario.scheduler 0) scenario.sum scenario.priority scenario.trace_info
        scenario.A [scenario.B] _ _ _ _ (Or.inl ⟨rfl, _, rfl, rfl⟩)⟩,
    ⟨_, _, _, _, ⟨rfl, _, rfl, rfl⟩,
      readiness_is_monotone 64 0 (scenario.memory [Slot.pending, Slot.pending])
        (scenario.scheduler 0) scenario.sum scenario.priority scenario.trace_info
        scenario.A [scenario.B] _ _ _ _ (Or.inr (Or.inl ⟨rfl, _, rfl, rfl⟩))⟩,
    ⟨_, _, _, _, ⟨rfl, _, rfl, rfl⟩,
      readiness_is_monotone 64 0 (scenario.memory [Slot.pending, Slot.pending])
        (scenario.scheduler 0) scenario.sum scenario.priority scenario.trace_info
        scenario.A [scenario.B] _ _ _ _ (Or.inr (Or.inr ⟨rfl, _, rfl, rfl⟩))⟩⟩

end stx
